import Mathlib

/-!
# Job feed and bookmark store

A shallow embedding of the logic of the job-listing client:

* `src/utils/storage.js`: `saveBookmarks`, `loadBookmarks` (the Bookmark Store);
* `src/screens/JobsScreen.js`: `fetchJobs`, `toggleBookmark`, `handleLoadMore`,
  `handleRefresh` (the Job Feed Controller);
* `src/screens/BookmarksScreen.js`: `removeBookmark`.

JavaScript values that reach this code are JSON data (they come out of
`JSON.parse` or `response.json()`); a property read that finds nothing yields
`undefined`, modelled by `none`.  The platform (the `JSON` codec, `AsyncStorage`,
`fetch`) is not part of the repository: it is a parameter of the model.
React state is passed explicitly; one handler runs to completion before the next.
-/

namespace JobApp

/-! ## JSON data and the JavaScript operators the code applies to it -/

/-- JSON data.  Numbers are modelled by integers (a Job Record's `id` is an
integer; JSON text has no `NaN`, so `===` on numbers is equality). -/
inductive JSON where
  | null : JSON
  | bool (b : Bool) : JSON
  | num (n : Int) : JSON
  | str (s : String) : JSON
  | arr (items : List JSON) : JSON
  | obj (fields : List (String × JSON)) : JSON

/-- A JavaScript value as seen by this code: JSON data, or `undefined` (`none`). -/
abbrev JSValue := Option JSON

/-- The message of a thrown JavaScript error. -/
abbrev Thrown := String

/-- `Array.isArray(v)`. -/
def isArray : JSON → Bool
  | .arr _ => true
  | _ => false

/-- Truthiness of a value (`if (v)`, `v && ...`, `v || ...`). -/
def truthy : JSON → Bool
  | .null => false
  | .bool b => b
  | .num n => n != 0
  | .str s => s != ""
  | .arr _ => true
  | .obj _ => true

/-- The property read `v[key]` on a value that is not `null`, for the keys this
code reads (`id`, `results`), which no prototype defines: an object yields its
own property, every other value `undefined`. -/
def prop (key : String) : JSON → JSValue
  | .obj fields => fields.lookup key
  | _ => none

/-- The property read `v.id`: a `TypeError` when `v` is `null`. -/
def getId : JSON → Except Thrown JSValue
  | .null => .error "TypeError: Cannot read properties of null (reading id)"
  | v => .ok (prop "id" v)

/-- The test `typeof v === 'number'`, returning the number. -/
def asNumber : JSValue → Option Int
  | some (.num n) => some n
  | _ => none

/-- The test `typeof v === 'number'`. -/
def isNumber (v : JSValue) : Bool := (asNumber v).isSome

/-- The comparison `v === n` against a number `n`. -/
def strictEqNum (v : JSValue) (n : Int) : Bool :=
  match v with
  | some (.num m) => m == n
  | _ => false

/-! ## Bookmark Store (`src/utils/storage.js`) -/

/-- The content of `AsyncStorage`: key/value pairs of strings. -/
abbrev Store := List (String × String)

/-- `BOOKMARKS_KEY`. -/
def BOOKMARKS_KEY : String := "@JobApp:bookmarks_v1"

/-- The platform under the Bookmark Store: the `JSON` codec of the engine and
whether the next `AsyncStorage` write or read rejects. -/
structure Platform where
  /-- `JSON.stringify` -/
  stringify : JSON → Except Thrown String
  /-- `JSON.parse` -/
  parse : String → Except Thrown JSON
  /-- `AsyncStorage.setItem` rejects -/
  setItemFails : Bool
  /-- `AsyncStorage.getItem` rejects -/
  getItemFails : Bool

/-- `AsyncStorage.setItem(key, value)`: overwrites the slot of `key`. -/
def setItem (P : Platform) (key value : String) (st : Store) : Except Thrown Store :=
  if P.setItemFails then .error "AsyncStorage.setItem failed"
  else .ok ((key, value) :: st.filter (fun kv => kv.1 != key))

/-- `AsyncStorage.getItem(key)`: the value of the slot, `null` (`none`) when absent. -/
def getItem (P : Platform) (key : String) (st : Store) : Except Thrown (Option String) :=
  if P.getItemFails then .error "AsyncStorage.getItem failed"
  else .ok (st.lookup key)

/-- `saveBookmarks(bookmarks)`: the store after the call.  A non-array argument is
rejected; a failure of the codec or of the write is caught and only logged. -/
def saveBookmarks (P : Platform) (bookmarks : JSON) (st : Store) : Store :=
  if !isArray bookmarks then st
  else
    match (do
      let jsonValue ← P.stringify bookmarks
      setItem P BOOKMARKS_KEY jsonValue st) with
    | .ok st' => st'
    | .error _ => st

/-- `loadBookmarks()`: what the promise settles to, `.ok items` when it resolves
to the array `items`.  The whole body sits in `try`; the `catch` block logs and
returns the empty array. -/
def loadBookmarks (P : Platform) (st : Store) : Except Thrown (List JSON) :=
  match (do
    let jsonValue ← getItem P BOOKMARKS_KEY st
    let bookmarks ← match jsonValue with
      | some text => P.parse text
      | none => pure (JSON.arr [])
    pure (match bookmarks with
      | .arr items => items
      | _ => [])) with
  | .ok items => .ok items
  | .error _ => .ok []

/-! ## A reference codec

`JSON.stringify` and `JSON.parse` belong to the engine.  `referenceCodec` below
stands for them on JSON data: it writes compact JSON text as `JSON.stringify`
does (no insignificant white space; in strings only the quote and the backslash
are escaped) and reads that text back; `referenceCodec_round_trip` proves that it
reads back every value it writes. -/

/-- The double quote. -/
def quoteChar : Char := Char.ofNat 34

/-- The backslash. -/
def escapeChar : Char := Char.ofNat 92

/-- The opening brace. -/
def openBrace : Char := Char.ofNat 123

/-- The closing brace. -/
def closeBrace : Char := Char.ofNat 125

/-- The characters of a string literal after the opening quote. -/
def encodeChars : List Char → List Char
  | [] => [quoteChar]
  | c :: rest =>
    if c = quoteChar ∨ c = escapeChar then escapeChar :: c :: encodeChars rest
    else c :: encodeChars rest

mutual
/-- The compact JSON text of a value. -/
def encode : JSON → List Char
  | .null => ['n', 'u', 'l', 'l']
  | .bool true => ['t', 'r', 'u', 'e']
  | .bool false => ['f', 'a', 'l', 's', 'e']
  | .num n => (toString n).toList
  | .str s => quoteChar :: encodeChars s.toList
  | .arr items => '[' :: encodeItems items
  | .obj fields => openBrace :: encodeFields fields
/-- The elements of an array and its closing bracket. -/
def encodeItems : List JSON → List Char
  | [] => [']']
  | [x] => encode x ++ [']']
  | x :: y :: rest => encode x ++ ',' :: encodeItems (y :: rest)
/-- The members of an object and its closing brace. -/
def encodeFields : List (String × JSON) → List Char
  | [] => [closeBrace]
  | [(k, v)] => quoteChar :: encodeChars k.toList ++ ':' :: encode v ++ [closeBrace]
  | (k, v) :: f :: rest =>
    quoteChar :: encodeChars k.toList ++ ':' :: encode v ++ ',' :: encodeFields (f :: rest)
end

/-- Reads a string literal after its opening quote: the string and the rest. -/
def decodeChars : List Char → Option (List Char × List Char)
  | [] => none
  | c :: rest =>
    if c = quoteChar then some ([], rest)
    else if c = escapeChar then
      match rest with
      | e :: rest' => (decodeChars rest').map (fun r => (e :: r.1, r.2))
      | [] => none
    else (decodeChars rest).map (fun r => (c :: r.1, r.2))

/-- Reads a run of decimal digits: its value so far and the rest. -/
def decodeDigits (acc : Nat) : List Char → Nat × List Char
  | [] => (acc, [])
  | c :: rest =>
    if c.isDigit then decodeDigits (10 * acc + (c.toNat - 48)) rest
    else (acc, c :: rest)

mutual
/-- Reads one value from the front of the text; `fuel` bounds the nesting. -/
def decode : Nat → List Char → Option (JSON × List Char)
  | 0, _ => none
  | fuel + 1, cs =>
    match cs with
    | 'n' :: 'u' :: 'l' :: 'l' :: rest => some (.null, rest)
    | 't' :: 'r' :: 'u' :: 'e' :: rest => some (.bool true, rest)
    | 'f' :: 'a' :: 'l' :: 's' :: 'e' :: rest => some (.bool false, rest)
    | '[' :: ']' :: rest => some (.arr [], rest)
    | '[' :: rest => (decodeItems fuel rest).map (fun r => (.arr r.1, r.2))
    | '-' :: d :: rest =>
      if d.isDigit then
        let r := decodeDigits 0 (d :: rest)
        some (.num (-(r.1 : Int)), r.2)
      else none
    | c :: rest =>
      if c = quoteChar then
        (decodeChars rest).map (fun r => (.str (String.mk r.1), r.2))
      else if c = openBrace then
        match rest with
        | [] => none
        | c' :: rest' =>
          if c' = closeBrace then some (.obj [], rest')
          else (decodeFields fuel rest).map (fun r => (.obj r.1, r.2))
      else if c.isDigit then
        let r := decodeDigits 0 (c :: rest)
        some (.num (r.1 : Int), r.2)
      else none
    | [] => none
/-- Reads the elements of an array, up to and including the closing bracket. -/
def decodeItems : Nat → List Char → Option (List JSON × List Char)
  | 0, _ => none
  | fuel + 1, cs =>
    match decode fuel cs with
    | some (v, ',' :: rest) => (decodeItems fuel rest).map (fun r => (v :: r.1, r.2))
    | some (v, ']' :: rest) => some ([v], rest)
    | _ => none
/-- Reads the members of an object, up to and including the closing brace. -/
def decodeFields : Nat → List Char → Option (List (String × JSON) × List Char)
  | 0, _ => none
  | fuel + 1, cs =>
    match cs with
    | q :: rest =>
      if q = quoteChar then
        match decodeChars rest with
        | some (k, ':' :: rest') =>
          match decode fuel rest' with
          | some (v, c :: rest'') =>
            if c = ',' then
              (decodeFields fuel rest'').map (fun r => ((String.mk k, v) :: r.1, r.2))
            else if c = closeBrace then some ([(String.mk k, v)], rest'')
            else none
          | _ => none
        | _ => none
      else none
    | [] => none
end

/-- The reference codec with a store whose reads and writes succeed. -/
def referenceCodec : Platform where
  stringify v := .ok (String.mk (encode v))
  parse text :=
    match decode (text.length + 1) text.toList with
    | some (v, []) => .ok v
    | _ => .error "SyntaxError: JSON Parse error"
  setItemFails := false
  getItemFails := false

/-- The platform with the reference codec and the given outcomes of the store. -/
def codecPlatform (setItemFails getItemFails : Bool) : Platform :=
  { referenceCodec with setItemFails := setItemFails, getItemFails := getItemFails }

/-- The text does not go on with a digit: a number can end here. -/
def endsNumber : List Char → Bool
  | [] => true
  | c :: _ => !c.isDigit

/-! ## Bookmark toggling and removal -/

/-- `xs.some(p)` for a callback that may throw: stops at the first element
for which `p` is true. -/
def arraySome (p : JSON → Except Thrown Bool) : List JSON → Except Thrown Bool
  | [] => .ok false
  | x :: rest => do
    if ← p x then pure true else arraySome p rest

/-- `xs.filter(p)` for a callback that may throw: visits every element in order. -/
def arrayFilter (p : JSON → Except Thrown Bool) : List JSON → Except Thrown (List JSON)
  | [] => .ok []
  | x :: rest => do
    let keep ← p x
    let kept ← arrayFilter p rest
    pure (if keep then x :: kept else kept)

/-- The comparison `a === b`.  Primitives compare by value; two arrays or two
objects compare by reference, which JSON data does not carry: `sameRef` answers it. -/
def strictEq (sameRef : JSON → JSON → Bool) : JSValue → JSValue → Bool
  | none, none => true
  | some .null, some .null => true
  | some (.bool a), some (.bool b) => a == b
  | some (.num a), some (.num b) => a == b
  | some (.str a), some (.str b) => a == b
  | some (.arr a), some (.arr b) => sameRef (.arr a) (.arr b)
  | some (.obj a), some (.obj b) => sameRef (.obj a) (.obj b)
  | _, _ => false

/-- What the bookmark handlers read and write: the React state holding the
Bookmark Set (`bookmarks` in the Jobs screen, `bookmarkedJobs` in the Bookmarks
screen), the persistent store, the arguments handed to `saveBookmarks` so far
(oldest first) and the messages shown with `Alert.alert`. -/
structure BookmarkState where
  bookmarks : List JSON
  storage : Store
  saved : List JSON
  alerts : List String

/-- The callback `b => b.id === job.id` of `toggleBookmark`, `job.id` being the number `n`. -/
def hasJobId (n : Int) (b : JSON) : Except Thrown Bool := do
  pure (strictEqNum (← getId b) n)

/-- The callback `b => b.id !== job.id` of `toggleBookmark`. -/
def lacksJobId (n : Int) (b : JSON) : Except Thrown Bool := do
  pure (!strictEqNum (← getId b) n)

/-- `toggleBookmark(job)` of the Jobs screen.  An error is a `TypeError` thrown
while scanning the Bookmark Set: the promise rejects and nothing was updated. -/
def toggleBookmark (P : Platform) (job : JSValue) (s : BookmarkState) :
    Except Thrown BookmarkState :=
  let rejected : Except Thrown BookmarkState :=
    .ok { s with alerts := s.alerts ++ ["Cannot save this item."] }
  match job with
  | none => rejected
  | some j =>
    if !truthy j then rejected
    else
      match asNumber (prop "id" j) with
      | none => rejected
      | some n => do
        let isCurrentlyBookmarked ← arraySome (hasJobId n) s.bookmarks
        let updatedBookmarks ←
          if isCurrentlyBookmarked then arrayFilter (lacksJobId n) s.bookmarks
          else pure (s.bookmarks ++ [j])
        pure { s with
          bookmarks := updatedBookmarks
          storage := saveBookmarks P (.arr updatedBookmarks) s.storage
          saved := s.saved ++ [.arr updatedBookmarks] }

/-- The callback `j => j.id !== jobId` of `removeBookmark`. -/
def lacksId (sameRef : JSON → JSON → Bool) (jobId : JSValue) (j : JSON) :
    Except Thrown Bool := do
  pure (!strictEq sameRef (← getId j) jobId)

/-- `removeBookmark(jobId)` of the Bookmarks screen; `confirmed` tells whether the
user pressed "Remove" (rather than "Cancel") in the confirmation dialog.  A
`TypeError` thrown while filtering is caught and shown as an alert. -/
def removeBookmark (P : Platform) (sameRef : JSON → JSON → Bool) (jobId : JSValue)
    (confirmed : Bool) (s : BookmarkState) : BookmarkState :=
  let asked := { s with alerts := s.alerts ++ ["Are you sure?"] }
  if !confirmed then asked
  else
    match arrayFilter (lacksId sameRef jobId) s.bookmarks with
    | .ok updated =>
      { asked with
        bookmarks := updated
        storage := saveBookmarks P (.arr updated) s.storage
        saved := s.saved ++ [.arr updated] }
    | .error _ => { asked with alerts := asked.alerts ++ ["Could not remove bookmark."] }

/-! ## Job Feed Controller (`fetchJobs`, `handleLoadMore`, `handleRefresh`) -/

/-- The Feed Page State: the React state of the Jobs screen that `fetchJobs` uses. -/
structure FeedState where
  jobs : List JSON
  page : Nat
  isLoading : Bool
  isLoadingMore : Bool
  error : Option String
  hasMoreJobs : Bool

/-- How one `fetch` of a page ends: the promise rejects with an error of the
given message (empty when it has none), or a response arrives with its `ok` flag,
its status and the outcome of `response.json()`. -/
inductive FetchOutcome where
  | rejected (message : String)
  | response (ok : Bool) (status : Nat) (body : Except Thrown JSON)

/-- The runtime under the feed: what the server answers to
`GET API_ENDPOINT?page=n`, and the message of the engine's `TypeError` for
calling a `filter` that is not a function. -/
structure Runtime where
  respond : Nat → FetchOutcome
  notAFunction : String

/-- `item => item && typeof item.id === 'number'`: the record filter of `fetchJobs`. -/
def isValidJob (item : JSON) : Bool :=
  truthy item && isNumber (prop "id" item)

/-- `data?.results || []`. -/
def rawResults (data : JSON) : JSON :=
  let results : JSValue := match data with
    | .null => none
    | d => prop "results" d
  match results with
  | some r => if truthy r then r else .arr []
  | none => .arr []

/-- The `try` block of `fetchJobs` from the state `s` reached before it:
the state after its `set...` calls, or the message of the error it throws
(every throw precedes the first `set...` call). -/
def fetchAttempt (R : Runtime) (pageNum : Nat) (refreshing : Bool) (s : FeedState) :
    Except Thrown FeedState :=
  match R.respond pageNum with
  | .rejected message => .error message
  | .response ok status body =>
    if !ok then
      if status == 404 then .error "Jobs API endpoint not found (404)."
      else if status ≥ 500 then
        .error ("Server error (" ++ toString status ++ "). Please try again later.")
      else .error ("HTTP error! status: " ++ toString status)
    else do
      let data ← body
      match rawResults data with
      | .arr results =>
        let fetchedJobs := results.filter isValidJob
        if fetchedJobs.length > 0 then
          pure { s with
            jobs := if pageNum == 1 || refreshing then fetchedJobs else s.jobs ++ fetchedJobs
            page := pageNum
            hasMoreJobs := true }
        else
          let s1 := if results.length == 0 then { s with hasMoreJobs := false } else s
          pure (if pageNum == 1 || refreshing then { s1 with jobs := [] } else s1)
      | _ => .error R.notAFunction

/-- The fallback message of the `catch` block. -/
def fetchFailedMessage : String :=
  "Failed to fetch jobs. Please check connection and try again."

/-- `fetchJobs(pageNum, refreshing)` run to completion from the state `s`: the
state afterwards and the pages requested from the network. -/
def fetchJobs (R : Runtime) (pageNum : Nat) (refreshing : Bool) (s : FeedState) :
    FeedState × List Nat :=
  if (s.isLoading || s.isLoadingMore) && !refreshing then (s, [])
  else if !s.hasMoreJobs && decide (pageNum > 1) && !refreshing then (s, [])
  else
    let s1 := if pageNum > 1 then { s with isLoadingMore := true } else { s with isLoading := true }
    let s2 := if pageNum == 1 || refreshing then { s1 with error := none } else s1
    let s3 := match fetchAttempt R pageNum refreshing s2 with
      | .ok s' => s'
      | .error message =>
        { s2 with
          error := some (if message != "" then message else fetchFailedMessage)
          hasMoreJobs := true }
    ({ s3 with isLoading := false, isLoadingMore := false }, [pageNum])

/-- `handleLoadMore()`. -/
def handleLoadMore (R : Runtime) (s : FeedState) : FeedState × List Nat :=
  if !s.isLoading && !s.isLoadingMore && s.hasMoreJobs then fetchJobs R (s.page + 1) false s
  else (s, [])

/-- `handleRefresh()`: `setHasMoreJobs(true)` and then `fetchJobs(1, true)`, whose
guards are off when refreshing. -/
def handleRefresh (R : Runtime) (s : FeedState) : FeedState × List Nat :=
  fetchJobs R 1 true { s with hasMoreJobs := true }

/-! ## Vocabulary of the specification -/

/-- A record whose `id` is the number `n`. -/
def hasId (n : Int) (b : JSON) : Bool := strictEqNum (prop "id" b) n

/-- A record with a numeric `id`. -/
def hasNumericId (r : JSON) : Bool := isNumber (prop "id" r)

/-- No two records of the list share an `id`. -/
def UniqueById (bs : List JSON) : Prop :=
  bs.Pairwise (fun a b => prop "id" a ≠ prop "id" b)

/-- The Bookmark Set that the specification prescribes after a toggle of the
record `j` whose `id` is `n`: the records of that `id` removed when there is
one, the record appended otherwise. -/
def toggledSpec (n : Int) (j : JSON) (bs : List JSON) : List JSON :=
  if bs.any (hasId n) then bs.filter (fun b => !hasId n b) else bs ++ [j]

/-- The bookmark states reachable from an empty Bookmark Set by toggling jobs
with a numeric `id` and by removing bookmarks. -/
inductive Reachable (P : Platform) (sameRef : JSON → JSON → Bool) : BookmarkState → Prop
  | empty (st : Store) (saved : List JSON) (alerts : List String) :
      Reachable P sameRef ⟨[], st, saved, alerts⟩
  | toggle {s s' : BookmarkState} (j : JSON) (n : Int) :
      Reachable P sameRef s → prop "id" j = some (.num n) →
      toggleBookmark P (some j) s = .ok s' → Reachable P sameRef s'
  | remove {s : BookmarkState} (jobId : JSValue) (confirmed : Bool) :
      Reachable P sameRef s → Reachable P sameRef (removeBookmark P sameRef jobId confirmed s)

/-- The fetch of a page fails: the request rejects, the response is not `ok`,
its body does not parse, or its `results` is a truthy value other than an array
(calling `filter` on it throws). -/
def fetchFails : FetchOutcome → Bool
  | .rejected _ => true
  | .response false _ _ => true
  | .response true _ (.error _) => true
  | .response true _ (.ok data) => !isArray (rawResults data)

/-! ## Sample data -/

/-- A valid Job Record with the given `id`. -/
def sampleJob (n : Int) : JSON :=
  .obj [("id", .num n), ("title", .str "Driver"),
    ("primary_details", .obj [("Place", .str "Pune")]),
    ("creatives", .arr [.obj [("file", .str "a.png")]]), ("whatsapp_no", .null)]

/-- A record whose `id` is not a number. -/
def invalidJob : JSON := .obj [("id", .str "x"), ("title", .str "Ad")]

/-- The response body with the given `results`. -/
def resultsBody (results : List JSON) : JSON := .obj [("results", .arr results)]

/-- The feed state at mount (the initial values of `useState`). -/
def initialFeed : FeedState :=
  { jobs := [], page := 1, isLoading := false, isLoadingMore := false, error := none,
    hasMoreJobs := true }

/-- A first page of 20 valid records. -/
def firstPage : List JSON := (List.range 20).map (fun i => sampleJob i)

/-- A second page of 10 valid records and 5 invalid ones. -/
def secondPage : List JSON :=
  (List.range 10).map (fun i => sampleJob (20 + i)) ++ List.replicate 5 invalidJob

/-- A server with two pages of records and nothing after them. -/
def sampleRuntime : Runtime where
  respond n :=
    if n = 1 then .response true 200 (.ok (resultsBody firstPage))
    else if n = 2 then .response true 200 (.ok (resultsBody secondPage))
    else .response true 200 (.ok (resultsBody []))
  notAFunction := "results.filter is not a function"

/-- A server whose first page arrives and whose later requests fail. -/
def flakyRuntime : Runtime where
  respond n :=
    if n = 1 then .response true 200 (.ok (resultsBody firstPage))
    else .rejected "Network request failed"
  notAFunction := "results.filter is not a function"

/-- A server that has no records at all. -/
def emptyRuntime : Runtime where
  respond _ := .response true 200 (.ok (resultsBody []))
  notAFunction := "results.filter is not a function"

/-- A server whose pages hold only a record without a numeric `id`. -/
def invalidRuntime : Runtime where
  respond _ := .response true 200 (.ok (resultsBody [invalidJob]))
  notAFunction := "results.filter is not a function"

/-- The feed after the fetch at mount, `fetchJobs(1, true)`. -/
def afterFirstPage : FeedState := (fetchJobs sampleRuntime 1 true initialFeed).1

/-- The feed after the first `handleLoadMore()`. -/
def afterSecondPage : FeedState := (handleLoadMore sampleRuntime afterFirstPage).1

/-- A feed on its third page. -/
def thirdPageFeed : FeedState :=
  { jobs := [sampleJob 1, sampleJob 2], page := 3, isLoading := false, isLoadingMore := false,
    error := none, hasMoreJobs := true }

/-- Two bookmarks in memory, an empty store. -/
def twoBookmarks : BookmarkState :=
  { bookmarks := [sampleJob 1, sampleJob 2], storage := [], saved := [], alerts := [] }

/-- A store with another key and an older value in the bookmark slot. -/
def staleStore : Store := [("other", "1"), (BOOKMARKS_KEY, "[1,2]")]

/-- The reference codec over a store whose reads reject. -/
def unreadable : Platform := { referenceCodec with getItemFails := true }

/-- A server that answers every request with the given failure status. -/
def statusRuntime (status : Nat) : Runtime where
  respond _ := .response false status (.ok (resultsBody []))
  notAFunction := "results.filter is not a function"

/-- A server whose successful responses carry a body that is not JSON. -/
def garbledRuntime : Runtime where
  respond _ := .response true 200 (.error "JSON Parse error: Unexpected token")
  notAFunction := "results.filter is not a function"

/-- A feed on its third page with a further page being fetched. -/
def loadingMoreFeed : FeedState := { thirdPageFeed with isLoadingMore := true }

/-- A feed on its third page that has seen the terminal page. -/
def exhaustedFeed : FeedState := { thirdPageFeed with hasMoreJobs := false }

/-- The feed after a first page from the flaky server and a failed `handleLoadMore()`. -/
def afterFailedSecondPage : FeedState :=
  (handleLoadMore flakyRuntime (fetchJobs flakyRuntime 1 true initialFeed).1).1

/-! ## Lemmas -/

/-- `v === n` holds exactly when `v` is the number `n`. -/
theorem strictEqNum_iff (v : JSValue) (n : Int) :
    strictEqNum v n = true ↔ v = some (.num n) := by
  unfold strictEqNum
  split <;> simp_all

/-- A record has the `id` `n` exactly when its `id` property is the number `n`. -/
theorem hasId_iff (n : Int) (b : JSON) : hasId n b = true ↔ prop "id" b = some (.num n) :=
  strictEqNum_iff _ _

/-- Reading `id` from a value other than `null` does not throw. -/
theorem getId_of_ne_null {b : JSON} (h : b ≠ .null) : getId b = .ok (prop "id" b) := by
  cases b <;> simp_all [getId]

/-- A value with a property is not `null`. -/
theorem ne_null_of_prop {key : String} {b v : JSON} (h : prop key b = some v) : b ≠ .null := by
  rintro rfl
  simp [prop] at h

/-- A value with a property is an object, hence truthy. -/
theorem truthy_of_prop {key : String} {b v : JSON} (h : prop key b = some v) : truthy b = true := by
  cases b <;> simp_all [prop, truthy]

/-- On records none of which is `null`, `some(b => b.id === job.id)` is `List.any`. -/
theorem arraySome_hasJobId (n : Int) (bs : List JSON) (hrec : ∀ b ∈ bs, b ≠ .null) :
    arraySome (hasJobId n) bs = .ok (bs.any (hasId n)) := by
  induction bs with
  | nil => rfl
  | cons b rest ih =>
    have hb : b ≠ .null := hrec b (List.mem_cons_self _ _)
    have ih' := ih (fun x hx => hrec x (List.mem_cons_of_mem _ hx))
    cases hh : hasId n b <;>
      simp_all [arraySome, hasJobId, getId_of_ne_null hb, hasId, bind, Except.bind, pure, Except.pure]

/-- On records none of which is `null`, `filter(b => b.id !== job.id)` is `List.filter`. -/
theorem arrayFilter_lacksJobId (n : Int) (bs : List JSON) (hrec : ∀ b ∈ bs, b ≠ .null) :
    arrayFilter (lacksJobId n) bs = .ok (bs.filter (fun b => !hasId n b)) := by
  induction bs with
  | nil => rfl
  | cons b rest ih =>
    have hb : b ≠ .null := hrec b (List.mem_cons_self _ _)
    have ih' := ih (fun x hx => hrec x (List.mem_cons_of_mem _ hx))
    cases hh : hasId n b <;>
      simp_all [arrayFilter, lacksJobId, getId_of_ne_null hb, hasId, bind, Except.bind, pure, Except.pure]

/-- What `filter` returns, when it returns, is a sublist of the array. -/
theorem arrayFilter_sublist (p : JSON → Except Thrown Bool) :
    ∀ (bs out : List JSON), arrayFilter p bs = .ok out → out.Sublist bs := by
  intro bs
  induction bs with
  | nil =>
    intro out h
    simp [arrayFilter] at h
    subst h
    exact List.Sublist.refl _
  | cons b rest ih =>
    intro out h
    simp only [arrayFilter, bind, Except.bind] at h
    cases hp : p b with
    | error e => simp [hp] at h
    | ok keep =>
      cases hr : arrayFilter p rest with
      | error e => simp [hp, hr] at h
      | ok kept =>
        simp only [hp, hr, pure, Except.pure, Except.ok.injEq] at h
        subst h
        cases keep
        · simpa using (ih kept hr).cons b
        · simpa using (ih kept hr).cons₂ b

/-- `toggleBookmark` computes `toggledSpec`, stores it in memory and hands it to
`saveBookmarks`. -/
theorem toggleBookmark_eq (P : Platform) (s : BookmarkState) (j : JSON) (n : Int)
    (hid : prop "id" j = some (.num n)) (hrec : ∀ b ∈ s.bookmarks, b ≠ .null) :
    toggleBookmark P (some j) s = .ok
      { s with
        bookmarks := toggledSpec n j s.bookmarks
        storage := saveBookmarks P (.arr (toggledSpec n j s.bookmarks)) s.storage
        saved := s.saved ++ [.arr (toggledSpec n j s.bookmarks)] } := by
  have ht := truthy_of_prop hid
  unfold toggleBookmark toggledSpec
  simp only [ht, hid, asNumber, arraySome_hasJobId n _ hrec, arrayFilter_lacksJobId n _ hrec]
  cases h : s.bookmarks.any (hasId n) <;> simp [bind, Except.bind, pure, Except.pure]

/-- Toggling keeps the Bookmark Set free of `null`. -/
theorem toggled_ne_null (n : Int) (j : JSON) (bs : List JSON)
    (hid : prop "id" j = some (.num n)) (hrec : ∀ b ∈ bs, b ≠ .null) :
    ∀ b ∈ toggledSpec n j bs, b ≠ .null := by
  intro b hb
  unfold toggledSpec at hb
  split at hb
  · exact hrec b (List.mem_of_mem_filter hb)
  · rcases List.mem_append.mp hb with h | h
    · exact hrec b h
    · rw [List.mem_singleton.mp h]; exact ne_null_of_prop hid

/-- Toggling the same job twice keeps, for every `id` value, whether a record has it. -/
theorem toggled_toggled_mem (n : Int) (j : JSON) (bs : List JSON)
    (hid : prop "id" j = some (.num n)) (v : JSValue) :
    (∃ b ∈ toggledSpec n j (toggledSpec n j bs), prop "id" b = v) ↔ (∃ b ∈ bs, prop "id" b = v) := by
  have hj : hasId n j = true := (hasId_iff n j).2 hid
  by_cases h : bs.any (hasId n) = true
  · -- present: removed, then appended again
    have h1 : toggledSpec n j bs = bs.filter (fun b => !hasId n b) := by simp [toggledSpec, h]
    have h2 : (bs.filter (fun b => !hasId n b)).any (hasId n) = false := by
      simp [List.any_eq_false, List.mem_filter]
    have h3 : toggledSpec n j (toggledSpec n j bs) = bs.filter (fun b => !hasId n b) ++ [j] := by
      rw [h1]; simp [toggledSpec, h2]
    rw [h3]
    obtain ⟨w, hw, hwid⟩ := List.any_eq_true.mp h
    constructor
    · rintro ⟨b, hb, hbv⟩
      rcases List.mem_append.mp hb with hb | hb
      · exact ⟨b, List.mem_of_mem_filter hb, hbv⟩
      · rw [List.mem_singleton.mp hb, hid] at hbv
        exact ⟨w, hw, by rw [(hasId_iff n w).1 hwid, hbv]⟩
    · rintro ⟨b, hb, hbv⟩
      cases hbn : hasId n b
      · exact ⟨b, List.mem_append_left _ (List.mem_filter.mpr ⟨hb, by simp [hbn]⟩), hbv⟩
      · refine ⟨j, List.mem_append_right _ (List.mem_singleton.mpr rfl), ?_⟩
        rw [hid, ← hbv, (hasId_iff n b).1 hbn]
  · -- absent: appended, then removed again
    have h0 : bs.any (hasId n) = false := by simpa using h
    have h1 : toggledSpec n j bs = bs ++ [j] := by simp [toggledSpec, h0]
    have hall : ∀ b ∈ bs, hasId n b = false := by
      simpa [List.any_eq_false] using h0
    have h3 : toggledSpec n j (toggledSpec n j bs) = bs := by
      rw [h1]
      have : (bs ++ [j]).any (hasId n) = true := by simp [hj]
      simp only [toggledSpec, this, if_true, List.filter_append]
      have hf : bs.filter (fun b => !hasId n b) = bs := by
        rw [List.filter_eq_self]; intro b hb; simp [hall b hb]
      simp [hf, hj]
    rw [h3]

/-- Toggling keeps the Bookmark Set unique by `id`. -/
theorem toggled_unique (n : Int) (j : JSON) (bs : List JSON)
    (hid : prop "id" j = some (.num n)) (hu : UniqueById bs) : UniqueById (toggledSpec n j bs) := by
  unfold toggledSpec
  split
  · exact List.Pairwise.sublist (List.filter_sublist bs) hu
  · rename_i h
    have hall : ∀ b ∈ bs, hasId n b = false := by
      simpa [List.any_eq_false] using h
    unfold UniqueById
    rw [List.pairwise_append]
    refine ⟨hu, List.pairwise_singleton _ _, ?_⟩
    intro a ha b hb
    rw [List.mem_singleton.mp hb, hid]
    intro hab
    have := (hasId_iff n a).2 hab
    rw [hall a ha] at this
    exact Bool.noConfusion this

/-- `removeBookmark` leaves a sublist of the Bookmark Set. -/
theorem removeBookmark_sublist (P : Platform) (sameRef : JSON → JSON → Bool) (jobId : JSValue)
    (confirmed : Bool) (s : BookmarkState) :
    (removeBookmark P sameRef jobId confirmed s).bookmarks.Sublist s.bookmarks := by
  unfold removeBookmark
  cases confirmed
  · simp
  · cases h : arrayFilter (lacksId sameRef jobId) s.bookmarks with
    | error e => simp
    | ok out => simpa using arrayFilter_sublist _ _ _ h

/-- `removeBookmark` keeps the Bookmark Set free of `null`. -/
theorem removeBookmark_ne_null (P : Platform) (sameRef : JSON → JSON → Bool) (jobId : JSValue)
    (confirmed : Bool) (s : BookmarkState) (hrec : ∀ b ∈ s.bookmarks, b ≠ .null) :
    ∀ b ∈ (removeBookmark P sameRef jobId confirmed s).bookmarks, b ≠ .null :=
  fun b hb => hrec b ((removeBookmark_sublist P sameRef jobId confirmed s).subset hb)

/-- A reachable Bookmark Set is unique by `id` and holds no `null`. -/
theorem reachable_invariant (P : Platform) (sameRef : JSON → JSON → Bool) (r : BookmarkState)
    (h : Reachable P sameRef r) : UniqueById r.bookmarks ∧ ∀ b ∈ r.bookmarks, b ≠ .null := by
  induction h with
  | empty st saved alerts => exact ⟨List.Pairwise.nil, by simp⟩
  | toggle j n _ hid htog ih =>
    rw [toggleBookmark_eq P _ j n hid ih.2] at htog
    cases htog
    exact ⟨toggled_unique n j _ hid ih.1, toggled_ne_null n j _ hid ih.2⟩
  | remove jobId confirmed _ ih =>
    exact ⟨List.Pairwise.sublist (removeBookmark_sublist P sameRef jobId confirmed _) ih.1,
      removeBookmark_ne_null P sameRef jobId confirmed _ ih.2⟩

/-- The record filter of `fetchJobs` keeps exactly the records with a numeric `id`:
a value with a numeric `id` is an object, hence truthy. -/
theorem isValidJob_eq_hasNumericId : isValidJob = hasNumericId := by
  funext r
  cases r <;> simp [isValidJob, hasNumericId, truthy, prop, isNumber, asNumber]

/-- A call of `fetchJobs` that issued a request passed both guards. -/
theorem guards_of_requested {R : Runtime} {pageNum : Nat} {refreshing : Bool} {s : FeedState}
    (h : (fetchJobs R pageNum refreshing s).2 ≠ []) :
    ((s.isLoading || s.isLoadingMore) && !refreshing) = false ∧
    (!s.hasMoreJobs && decide (pageNum > 1) && !refreshing) = false := by
  by_cases g1 : ((s.isLoading || s.isLoadingMore) && !refreshing) = true
  · simp [fetchJobs, g1] at h
  · by_cases g2 : (!s.hasMoreJobs && decide (pageNum > 1) && !refreshing) = true
    · simp [fetchJobs, g1, g2] at h
    · exact ⟨by simpa using g1, by simpa using g2⟩

/-- The `try` block on a successful response whose raw results are the array `results`. -/
theorem fetchAttempt_success (R : Runtime) (pageNum : Nat) (refreshing : Bool) (s : FeedState)
    (status : Nat) (data : JSON) (results : List JSON)
    (hresp : R.respond pageNum = .response true status (.ok data))
    (hraw : rawResults data = .arr results) :
    fetchAttempt R pageNum refreshing s = .ok
      (if (results.filter hasNumericId).length > 0 then
        { s with
          jobs := if pageNum == 1 || refreshing then results.filter hasNumericId
            else s.jobs ++ results.filter hasNumericId
          page := pageNum
          hasMoreJobs := true }
      else
        { s with
          jobs := if pageNum == 1 || refreshing then [] else s.jobs
          hasMoreJobs := if results.length == 0 then false else s.hasMoreJobs }) := by
  unfold fetchAttempt
  rw [hresp]
  simp only [Bool.not_true, Bool.false_eq_true, ↓reduceIte, bind, Except.bind, hraw,
    isValidJob_eq_hasNumericId, pure, Except.pure]
  by_cases h1 : (results.filter hasNumericId).length > 0
  · simp only [h1, ↓reduceIte]
  · by_cases h2 : (pageNum == 1 || refreshing) = true <;>
      by_cases h3 : (results.length == 0) = true <;>
      simp only [h1, h2, h3, ↓reduceIte, Bool.false_eq_true]

/-- The `try` block throws when the fetch fails. -/
theorem fetchAttempt_failure (R : Runtime) (pageNum : Nat) (refreshing : Bool) (s : FeedState)
    (hfail : fetchFails (R.respond pageNum) = true) :
    ∃ message, fetchAttempt R pageNum refreshing s = .error message := by
  unfold fetchAttempt
  cases hr : R.respond pageNum with
  | rejected message => exact ⟨message, rfl⟩
  | response ok status body =>
    rw [hr] at hfail
    cases ok
    · simp only [Bool.not_false, if_true]
      split
      · exact ⟨_, rfl⟩
      · split <;> exact ⟨_, rfl⟩
    · cases body with
      | error e => exact ⟨e, rfl⟩
      | ok data =>
        simp only [fetchFails] at hfail
        cases hd : rawResults data <;> simp_all [isArray, bind, Except.bind]

/-- The state after a `fetchJobs` that issued its request and got a successful
response whose raw results are the array `results`. -/
theorem fetchJobs_success (R : Runtime) (pageNum : Nat) (refreshing : Bool) (s : FeedState)
    (status : Nat) (data : JSON) (results : List JSON)
    (hreq : (fetchJobs R pageNum refreshing s).2 ≠ [])
    (hresp : R.respond pageNum = .response true status (.ok data))
    (hraw : rawResults data = .arr results) :
    fetchJobs R pageNum refreshing s =
      ({ jobs :=
          if (results.filter hasNumericId).length > 0 then
            (if pageNum == 1 || refreshing then results.filter hasNumericId
              else s.jobs ++ results.filter hasNumericId)
          else (if pageNum == 1 || refreshing then [] else s.jobs)
         page := if (results.filter hasNumericId).length > 0 then pageNum else s.page
         isLoading := false
         isLoadingMore := false
         error := if pageNum == 1 || refreshing then none else s.error
         hasMoreJobs :=
          if (results.filter hasNumericId).length > 0 then true
          else if results.length == 0 then false else s.hasMoreJobs }, [pageNum]) := by
  obtain ⟨g1, g2⟩ := guards_of_requested hreq
  unfold fetchJobs
  simp only [g1, g2, Bool.false_eq_true, ↓reduceIte,
    fetchAttempt_success R pageNum refreshing _ status data results hresp hraw]
  by_cases h1 : (results.filter hasNumericId).length > 0 <;>
    by_cases h2 : (pageNum == 1 || refreshing) = true <;>
    by_cases h3 : pageNum > 1 <;>
    simp only [h1, h2, h3, ↓reduceIte, Bool.false_eq_true]

/-- The state after a `fetchJobs` that issued its request and failed. -/
theorem fetchJobs_failure (R : Runtime) (pageNum : Nat) (refreshing : Bool) (s : FeedState)
    (hreq : (fetchJobs R pageNum refreshing s).2 ≠ [])
    (hfail : fetchFails (R.respond pageNum) = true) :
    ∃ message, fetchJobs R pageNum refreshing s =
      ({ s with
          isLoading := false
          isLoadingMore := false
          error := some (if message != "" then message else fetchFailedMessage)
          hasMoreJobs := true }, [pageNum]) := by
  obtain ⟨g1, g2⟩ := guards_of_requested hreq
  obtain ⟨message, hm⟩ := fetchAttempt_failure R pageNum refreshing
    (if pageNum == 1 || refreshing then
      { (if pageNum > 1 then { s with isLoadingMore := true } else { s with isLoading := true })
        with error := none }
     else (if pageNum > 1 then { s with isLoadingMore := true } else { s with isLoading := true }))
    hfail
  refine ⟨message, ?_⟩
  unfold fetchJobs
  simp only [g1, g2, Bool.false_eq_true, ↓reduceIte, hm]
  by_cases h2 : (pageNum == 1 || refreshing) = true <;>
    by_cases h3 : pageNum > 1 <;>
    simp only [h2, h3, ↓reduceIte, Bool.false_eq_true]

/-- `handleRefresh` always issues its request. -/
theorem handleRefresh_requested (R : Runtime) (s : FeedState) : (handleRefresh R s).2 ≠ [] := by
  simp [handleRefresh, fetchJobs]

/-- The `try` block sets the page to the requested one or leaves it. -/
theorem fetchAttempt_page (R : Runtime) (pageNum : Nat) (refreshing : Bool) (s s' : FeedState)
    (h : fetchAttempt R pageNum refreshing s = .ok s') : s'.page = pageNum ∨ s'.page = s.page := by
  unfold fetchAttempt at h
  cases hr : R.respond pageNum with
  | rejected message => simp [hr] at h
  | response ok status body =>
    cases ok
    · simp only [hr, Bool.not_false, if_true] at h
      split at h
      · simp at h
      · split at h <;> simp at h
    · cases body with
      | error e => simp [hr, bind, Except.bind] at h
      | ok data =>
        simp only [hr, Bool.not_true, Bool.false_eq_true, if_false, bind, Except.bind] at h
        split at h
        · split at h
          · simp only [pure, Except.pure, Except.ok.injEq] at h
            subst h
            exact Or.inl rfl
          · simp only [pure, Except.pure, Except.ok.injEq] at h
            subst h
            right
            split <;> split <;> rfl
        · simp at h

/-- `fetchJobs` sets the page to the requested one or leaves it. -/
theorem fetchJobs_page (R : Runtime) (pageNum : Nat) (refreshing : Bool) (s : FeedState) :
    (fetchJobs R pageNum refreshing s).1.page = pageNum ∨
    (fetchJobs R pageNum refreshing s).1.page = s.page := by
  unfold fetchJobs
  split
  · exact Or.inr rfl
  · split
    · exact Or.inr rfl
    · simp only
      split
      · rename_i s' hs'
        rcases fetchAttempt_page R pageNum refreshing _ s' hs' with h | h
        · exact Or.inl h
        · right
          rw [h]
          split <;> split <;> rfl
      · right
        split <;> split <;> rfl

/-- The current page, 1 at mount, stays at least 1 under `handleLoadMore` and
`handleRefresh`. -/
theorem page_pos (R : Runtime) (s : FeedState) (h : 1 ≤ s.page) :
    1 ≤ (handleLoadMore R s).1.page ∧ 1 ≤ (handleRefresh R s).1.page := by
  constructor
  · unfold handleLoadMore
    split
    · rcases fetchJobs_page R (s.page + 1) false s with h' | h' <;> omega
    · exact h
  · unfold handleRefresh
    rcases fetchJobs_page R 1 true { s with hasMoreJobs := true } with h' | h'
    · omega
    · rw [h']; exact h

/-- A string that starts with a non-empty string is not empty. -/
theorem append_ne_empty (a b : String) (h : a ≠ "") : (a ++ b != "") = true := by
  simp only [bne_iff_ne, ne_eq]
  intro h'
  apply h
  have hd := congrArg String.data h'
  simp only [String.data_append, List.append_eq_nil] at hd
  exact String.ext hd.1

/-- The state after a `fetchJobs` that issued its request and whose `try` block
threw an error of the given message. -/
theorem fetchJobs_thrown (R : Runtime) (pageNum : Nat) (refreshing : Bool) (s : FeedState)
    (message : String)
    (hreq : (fetchJobs R pageNum refreshing s).2 ≠ [])
    (hthrow : ∀ t, fetchAttempt R pageNum refreshing t = .error message) :
    fetchJobs R pageNum refreshing s =
      ({ s with
          isLoading := false
          isLoadingMore := false
          error := some (if message != "" then message else fetchFailedMessage)
          hasMoreJobs := true }, [pageNum]) := by
  obtain ⟨g1, g2⟩ := guards_of_requested hreq
  unfold fetchJobs
  simp only [g1, g2, Bool.false_eq_true, ↓reduceIte, hthrow]
  by_cases h2 : (pageNum == 1 || refreshing) = true <;>
    by_cases h3 : pageNum > 1 <;>
    simp only [h2, h3, ↓reduceIte, Bool.false_eq_true]

/-- The `try` block on a response that is not `ok`: the error thrown depends on the status alone. -/
theorem fetchAttempt_http_failure (R : Runtime) (pageNum : Nat) (refreshing : Bool)
    (status : Nat) (body : Except Thrown JSON)
    (hresp : R.respond pageNum = .response false status body) (t : FeedState) :
    fetchAttempt R pageNum refreshing t = .error
      (if status = 404 then "Jobs API endpoint not found (404)."
       else if 500 ≤ status then "Server error (" ++ toString status ++ "). Please try again later."
       else "HTTP error! status: " ++ toString status) := by
  unfold fetchAttempt
  rw [hresp]
  by_cases h1 : status = 404
  · simp [h1]
  · by_cases h2 : 500 ≤ status
    · simp [h1, h2]
    · simp [h1, h2]

/-- The `try` block never writes the error message. -/
theorem fetchAttempt_error (R : Runtime) (pageNum : Nat) (refreshing : Bool) (s s' : FeedState)
    (h : fetchAttempt R pageNum refreshing s = .ok s') : s'.error = s.error := by
  unfold fetchAttempt at h
  cases hr : R.respond pageNum with
  | rejected message => simp [hr] at h
  | response ok status body =>
    cases ok
    · simp only [hr, Bool.not_false, if_true] at h
      split at h
      · simp at h
      · split at h <;> simp at h
    · cases body with
      | error e => simp [hr, bind, Except.bind] at h
      | ok data =>
        simp only [hr, Bool.not_true, Bool.false_eq_true, if_false, bind, Except.bind] at h
        split at h
        · split at h
          · simp only [pure, Except.pure, Except.ok.injEq] at h
            subst h
            rfl
          · simp only [pure, Except.pure, Except.ok.injEq] at h
            subst h
            split <;> split <;> rfl
        · simp at h

/-- A `fetchJobs` for a page other than 1 that is not a refresh leaves a recorded
error message recorded, whatever the outcome. -/
theorem fetchJobs_error_kept (R : Runtime) (pageNum : Nat) (s : FeedState)
    (hpage : pageNum ≠ 1) (herr : s.error ≠ none) :
    (fetchJobs R pageNum false s).1.error ≠ none := by
  have hp : (pageNum == 1) = false := by simpa using hpage
  unfold fetchJobs
  split
  · exact herr
  · split
    · exact herr
    · simp only [hp, Bool.or_false, Bool.false_eq_true, if_false]
      split
      · rename_i s' hs'
        have := fetchAttempt_error R pageNum false _ s' hs'
        simp only [this]
        split <;> exact herr
      · simp

/-- Reading a string literal gives its characters back and stops after the closing quote. -/
theorem decodeChars_encodeChars (l rest : List Char) :
    decodeChars (encodeChars l ++ rest) = some (l, rest) := by
  induction l with
  | nil =>
    show decodeChars (quoteChar :: rest) = some ([], rest)
    rw [decodeChars.eq_def]
    simp
  | cons c tl ih =>
    by_cases hq : c = quoteChar
    · have h : encodeChars (c :: tl) ++ rest = escapeChar :: c :: (encodeChars tl ++ rest) := by
        simp [encodeChars, hq]
      have hne : escapeChar ≠ quoteChar := by decide
      rw [h, decodeChars.eq_def]
      simp [hne, ih]
    · by_cases he : c = escapeChar
      · have h : encodeChars (c :: tl) ++ rest = escapeChar :: c :: (encodeChars tl ++ rest) := by
          simp [encodeChars, he]
        have hne : escapeChar ≠ quoteChar := by decide
        rw [h, decodeChars.eq_def]
        simp [hne, ih]
      · have h : encodeChars (c :: tl) ++ rest = c :: (encodeChars tl ++ rest) := by
          simp [encodeChars, hq, he]
        rw [h, decodeChars.eq_def]
        simp [hq, he, ih]

/-- A decimal digit character is a digit and has the value of its digit. -/
theorem digitChar_digit (d : Nat) (h : d < 10) :
    (Nat.digitChar d).isDigit = true ∧ (Nat.digitChar d).toNat - 48 = d := by
  interval_cases d <;> decide

/-- The digits of a number are written in front of what follows. -/
theorem toDigitsCore_append (fuel n : Nat) (ds rest : List Char) :
    Nat.toDigitsCore 10 fuel n ds ++ rest = Nat.toDigitsCore 10 fuel n (ds ++ rest) := by
  induction fuel generalizing n ds with
  | zero => rfl
  | succ fuel ih =>
    simp only [Nat.toDigitsCore]
    split
    · rfl
    · rw [ih]; rfl

/-- Reading the digits of `n` brings the value read so far from 0 to `n`. -/
theorem decodeDigits_toDigitsCore (fuel n : Nat) (ds : List Char) (h : n < fuel) :
    decodeDigits 0 (Nat.toDigitsCore 10 fuel n ds) = decodeDigits n ds := by
  induction fuel generalizing n ds with
  | zero => omega
  | succ fuel ih =>
    obtain ⟨hd, hv⟩ := digitChar_digit (n % 10) (Nat.mod_lt _ (by decide))
    simp only [Nat.toDigitsCore]
    split
    · rename_i h0
      have hn : n % 10 = n := by omega
      rw [decodeDigits, if_pos hd, hv, hn, Nat.mul_zero, Nat.zero_add]
    · rename_i h0
      rw [ih (n / 10) _ (by omega), decodeDigits, if_pos hd, hv]
      congr 1
      omega

/-- Reading digits stops where the text does not go on with a digit. -/
theorem decodeDigits_stop (acc : Nat) (rest : List Char) (h : endsNumber rest = true) :
    decodeDigits acc rest = (acc, rest) := by
  cases rest with
  | nil => rfl
  | cons c tl =>
    have : c.isDigit = false := by simpa [endsNumber] using h
    simp [decodeDigits, this]

/-- The decimal text of a number starts with a decimal digit. -/
theorem toDigitsCore_head (fuel n : Nat) (ds : List Char) (h : n < fuel) :
    ∃ d, d < 10 ∧ ∃ tl, Nat.toDigitsCore 10 fuel n ds = Nat.digitChar d :: tl := by
  induction fuel generalizing n ds with
  | zero => omega
  | succ fuel ih =>
    simp only [Nat.toDigitsCore]
    split
    · exact ⟨n % 10, Nat.mod_lt _ (by decide), ds, rfl⟩
    · exact ih (n / 10) _ (by omega)

/-- The decimal text of a natural number reads back as the number. -/
theorem decodeDigits_repr (m : Nat) (rest : List Char) (h : endsNumber rest = true) :
    decodeDigits 0 ((toString m).toList ++ rest) = (m, rest) := by
  show decodeDigits 0 (Nat.toDigitsCore 10 (m + 1) m [] ++ rest) = (m, rest)
  rw [toDigitsCore_append, decodeDigits_toDigitsCore _ _ _ (by omega)]
  exact decodeDigits_stop m _ h

/-- The decimal text of a natural number starts with a decimal digit. -/
theorem repr_head (m : Nat) :
    ∃ d, d < 10 ∧ ∃ tl, (toString m).toList = Nat.digitChar d :: tl :=
  toDigitsCore_head (m + 1) m [] (by omega)

/-- A decimal digit is not a bracket, a quote or a brace. -/
theorem digitChar_not_special (d : Nat) (h : d < 10) :
    Nat.digitChar d ≠ ']' ∧ Nat.digitChar d ≠ quoteChar ∧ Nat.digitChar d ≠ closeBrace := by
  interval_cases d <;> decide

/-- The decimal text of an integer: that of a natural number, or a minus sign and that of
a positive one. -/
theorem toList_int (n : Int) :
    (∃ m : Nat, n = Int.ofNat m ∧ (toString n).toList = (toString m).toList) ∨
    (∃ m : Nat, n = Int.negSucc m ∧ (toString n).toList = '-' :: (toString (m + 1)).toList) := by
  cases n with
  | ofNat m => exact Or.inl ⟨m, rfl, rfl⟩
  | negSucc m => exact Or.inr ⟨m, rfl, rfl⟩

/-- Reading the decimal text of an integer. -/
theorem decode_num (n : Int) (fuel : Nat) (rest : List Char) (hrest : endsNumber rest = true) :
    decode (fuel + 1) ((toString n).toList ++ rest) = some (.num n, rest) := by
  rcases toList_int n with ⟨m, rfl, hm⟩ | ⟨m, rfl, hm⟩
  · obtain ⟨d, hd, tl, htl⟩ := repr_head m
    have hdd := decodeDigits_repr m rest hrest
    rw [hm]
    rw [htl] at hdd ⊢
    interval_cases d <;>
      simp [Nat.digitChar] at hdd <;>
      simp [Nat.digitChar, decode, quoteChar, openBrace, hdd]
  · obtain ⟨d, hd, tl, htl⟩ := repr_head (m + 1)
    have hdd := decodeDigits_repr (m + 1) rest hrest
    rw [hm]
    rw [htl] at hdd ⊢
    interval_cases d <;>
      simp [Nat.digitChar] at hdd <;>
      simp [Nat.digitChar, decode, quoteChar, openBrace, hdd, Int.negSucc_eq]

/-- The text of a value starts with a character other than the closing bracket. -/
theorem encode_head (v : JSON) : ∃ c tl, encode v = c :: tl ∧ c ≠ ']' := by
  cases v with
  | null => exact ⟨'n', _, by rw [encode], by decide⟩
  | bool b =>
    cases b
    · exact ⟨'f', _, by rw [encode], by decide⟩
    · exact ⟨'t', _, by rw [encode], by decide⟩
  | num n =>
    rcases toList_int n with ⟨m, _, hm⟩ | ⟨m, _, hm⟩
    · obtain ⟨d, hd, tl, htl⟩ := repr_head m
      exact ⟨_, tl, by rw [encode, hm, htl], (digitChar_not_special d hd).1⟩
    · exact ⟨'-', _, by rw [encode, hm], by decide⟩
  | str s => exact ⟨quoteChar, _, by rw [encode], by decide⟩
  | arr items => exact ⟨'[', _, by rw [encode], by decide⟩
  | obj fields => exact ⟨openBrace, _, by rw [encode], by decide⟩

/-- The text of the members of a non-empty object starts with a quote. -/
theorem encodeFields_head (f : String × JSON) (fs : List (String × JSON)) :
    ∃ tl, encodeFields (f :: fs) = quoteChar :: tl := by
  obtain ⟨k, v⟩ := f
  cases fs with
  | nil => exact ⟨_, by rw [encodeFields]; rfl⟩
  | cons g gs => exact ⟨_, by rw [encodeFields]; rfl⟩

mutual
/-- Reading the text of a value gives the value back and stops after it. -/
theorem decode_encode (v : JSON) (fuel : Nat) (rest : List Char)
    (hfuel : (encode v).length ≤ fuel) (hrest : endsNumber rest = true) :
    decode fuel (encode v ++ rest) = some (v, rest) := by
  match v with
  | .null =>
    obtain ⟨f, rfl⟩ : ∃ f, fuel = f + 1 := ⟨fuel - 1, by simp [encode] at hfuel; omega⟩
    simp [encode, decode]
  | .bool true =>
    obtain ⟨f, rfl⟩ : ∃ f, fuel = f + 1 := ⟨fuel - 1, by simp [encode] at hfuel; omega⟩
    simp [encode, decode]
  | .bool false =>
    obtain ⟨f, rfl⟩ : ∃ f, fuel = f + 1 := ⟨fuel - 1, by simp [encode] at hfuel; omega⟩
    simp [encode, decode]
  | .num n =>
    obtain ⟨c, tl, hc, _⟩ := encode_head (.num n)
    obtain ⟨f, rfl⟩ : ∃ f, fuel = f + 1 := ⟨fuel - 1, by rw [hc] at hfuel; simp at hfuel; omega⟩
    rw [encode]
    exact decode_num n f rest hrest
  | .str s =>
    obtain ⟨f, rfl⟩ : ∃ f, fuel = f + 1 := ⟨fuel - 1, by simp [encode] at hfuel; omega⟩
    rw [encode]
    simp [decode, quoteChar, decodeChars_encodeChars]
  | .arr [] =>
    obtain ⟨f, rfl⟩ : ∃ f, fuel = f + 1 := ⟨fuel - 1, by simp [encode] at hfuel; omega⟩
    simp [encode, encodeItems, decode]
  | .arr (x :: xs) =>
    obtain ⟨f, rfl⟩ : ∃ f, fuel = f + 1 := ⟨fuel - 1, by simp [encode] at hfuel; omega⟩
    have hlen : (encodeItems (x :: xs)).length ≤ f := by
      simp [encode] at hfuel; omega
    have ih := decodeItems_encodeItems (x :: xs) (List.cons_ne_nil _ _) f rest hlen
    obtain ⟨c, tl, hc, hne⟩ := encode_head x
    have hhead : ∃ tl', encodeItems (x :: xs) = c :: tl' := by
      cases xs with
      | nil => exact ⟨_, by rw [encodeItems, hc]; rfl⟩
      | cons y ys => exact ⟨_, by rw [encodeItems, hc]; rfl⟩
    obtain ⟨tl', htl'⟩ := hhead
    rw [encode]
    rw [htl'] at ih ⊢
    simp only [List.cons_append] at ih ⊢
    simp [decode, hne, ih]
  | .obj [] =>
    obtain ⟨f, rfl⟩ : ∃ f, fuel = f + 1 := ⟨fuel - 1, by simp [encode] at hfuel; omega⟩
    simp [encode, encodeFields, decode, openBrace, quoteChar, closeBrace]
  | .obj (g :: gs) =>
    obtain ⟨f, rfl⟩ : ∃ f, fuel = f + 1 := ⟨fuel - 1, by simp [encode] at hfuel; omega⟩
    have hlen : (encodeFields (g :: gs)).length ≤ f := by
      simp [encode] at hfuel; omega
    have ih := decodeFields_encodeFields (g :: gs) (List.cons_ne_nil _ _) f rest hlen
    obtain ⟨tl, htl⟩ := encodeFields_head g gs
    rw [encode]
    rw [htl] at ih ⊢
    simp [decode, openBrace, quoteChar, closeBrace] at ih ⊢
    simp [ih]
/-- Reading the text of the elements of a non-empty array gives them back. -/
theorem decodeItems_encodeItems (items : List JSON) (hne : items ≠ []) (fuel : Nat)
    (rest : List Char) (hfuel : (encodeItems items).length ≤ fuel) :
    decodeItems fuel (encodeItems items ++ rest) = some (items, rest) := by
  match items with
  | [] => exact absurd rfl hne
  | [x] =>
    obtain ⟨f, rfl⟩ : ∃ f, fuel = f + 1 := ⟨fuel - 1, by simp [encodeItems] at hfuel; omega⟩
    have hx := decode_encode x f (']' :: rest) (by simp [encodeItems] at hfuel; omega) rfl
    simp [encodeItems, decodeItems, hx]
  | x :: y :: more =>
    obtain ⟨f, rfl⟩ : ∃ f, fuel = f + 1 := ⟨fuel - 1, by simp [encodeItems] at hfuel; omega⟩
    have hx := decode_encode x f (',' :: (encodeItems (y :: more) ++ rest))
      (by simp [encodeItems] at hfuel; omega) rfl
    have hy := decodeItems_encodeItems (y :: more) (List.cons_ne_nil _ _) f rest
      (by simp [encodeItems] at hfuel; omega)
    simp [encodeItems, decodeItems, hx, hy]
/-- Reading the text of the members of a non-empty object gives them back. -/
theorem decodeFields_encodeFields (fields : List (String × JSON)) (hne : fields ≠ [])
    (fuel : Nat) (rest : List Char) (hfuel : (encodeFields fields).length ≤ fuel) :
    decodeFields fuel (encodeFields fields ++ rest) = some (fields, rest) := by
  match fields with
  | [] => exact absurd rfl hne
  | [(k, v)] =>
    obtain ⟨f, rfl⟩ : ∃ f, fuel = f + 1 := ⟨fuel - 1, by simp [encodeFields] at hfuel; omega⟩
    have hv := decode_encode v f (closeBrace :: rest) (by simp [encodeFields] at hfuel; omega) rfl
    have hk := decodeChars_encodeChars k.toList (':' :: (encode v ++ closeBrace :: rest))
    have h1 : closeBrace ≠ ',' := by decide
    simp [encodeFields, decodeFields] at hk ⊢
    simp [hk, hv, h1]
  | (k, v) :: g :: more =>
    obtain ⟨f, rfl⟩ : ∃ f, fuel = f + 1 := ⟨fuel - 1, by simp [encodeFields] at hfuel; omega⟩
    have hv := decode_encode v f (',' :: (encodeFields (g :: more) ++ rest))
      (by simp [encodeFields] at hfuel; omega) rfl
    have hg := decodeFields_encodeFields (g :: more) (List.cons_ne_nil _ _) f rest
      (by simp [encodeFields] at hfuel; omega)
    have hk := decodeChars_encodeChars k.toList
      (':' :: (encode v ++ ',' :: (encodeFields (g :: more) ++ rest)))
    simp [encodeFields, decodeFields] at hk ⊢
    simp [hk, hv, hg]
end

/-- The reference codec reads back every value it writes. -/
theorem referenceCodec_round_trip (v : JSON) :
    referenceCodec.stringify v = .ok (String.mk (encode v)) ∧
    referenceCodec.parse (String.mk (encode v)) = .ok v := by
  refine ⟨rfl, ?_⟩
  have h := decode_encode v ((encode v).length + 1) [] (by omega) rfl
  rw [List.append_nil] at h
  show (match decode ((String.mk (encode v)).length + 1) (String.mk (encode v)).toList with
    | some (v, []) => Except.ok v
    | _ => Except.error "SyntaxError: JSON Parse error") = Except.ok v
  have hl : (String.mk (encode v)).length = (encode v).length := rfl
  have ht : (String.mk (encode v)).toList = encode v := rfl
  rw [hl, ht, h]

/-- Save then load on a platform whose codec reads `bs` back and whose store works. -/
theorem save_then_load (P : Platform) (st : Store) (bs : List JSON) (text : String)
    (hser : P.stringify (.arr bs) = .ok text)
    (hpar : P.parse text = .ok (.arr bs))
    (hwrite : P.setItemFails = false)
    (hread : P.getItemFails = false) :
    loadBookmarks P (saveBookmarks P (.arr bs) st) = .ok bs := by
  simp [loadBookmarks, saveBookmarks, isArray, setItem, getItem, hser, hpar, hwrite, hread,
    bind, Except.bind, pure, Except.pure, List.lookup]

/-- A sample job is not `null`. -/
theorem sampleJob_ne_null (n : Int) : sampleJob n ≠ .null := by
  simp [sampleJob]

/-- The sample Bookmark Set holds no `null`. -/
theorem twoBookmarks_ne_null : ∀ b ∈ twoBookmarks.bookmarks, b ≠ .null := by
  intro b hb
  simp only [twoBookmarks, List.mem_cons, List.mem_singleton, List.not_mem_nil, or_false] at hb
  rcases hb with rfl | rfl <;> exact sampleJob_ne_null _

/-- The sample Bookmark Set is unique by `id`. -/
theorem twoBookmarks_unique : UniqueById twoBookmarks.bookmarks := by
  simp [UniqueById, twoBookmarks, sampleJob, prop, List.lookup]

/-! ## The claims -/

/-- Counterexample to C1: the write succeeds and the read that follows rejects;
`loadBookmarks()` then returns the empty sequence, not the saved one. -/
theorem read_failure_breaks_round_trip :
    unreadable.setItemFails = false ∧
    saveBookmarks unreadable (.arr [sampleJob 7]) staleStore =
      [(BOOKMARKS_KEY, String.mk (encode (.arr [sampleJob 7]))), ("other", "1")] ∧
    loadBookmarks unreadable (saveBookmarks unreadable (.arr [sampleJob 7]) staleStore) = .ok [] ∧
    ([] : List JSON) ≠ [sampleJob 7] :=
  ⟨rfl, rfl, rfl, fun h => List.noConfusion h⟩

/-- C1, amended (round trip of the Bookmark Store): for every sequence `bs` of
JSON values and whatever the store held before, when the write succeeds and the
read that follows succeeds, `saveBookmarks(bs)` followed by `loadBookmarks()`
returns exactly `bs`.  The codec is the reference codec; the same holds on every
platform whose codec reads `bs` back. -/
theorem save_then_load_round_trip (setItemFails getItemFails : Bool) (st : Store)
    (bs : List JSON)
    (hwrite : setItemFails = false) (hread : getItemFails = false) :
    loadBookmarks (codecPlatform setItemFails getItemFails)
      (saveBookmarks (codecPlatform setItemFails getItemFails) (.arr bs) st) = .ok bs ∧
    ∀ (P : Platform) (text : String), P.stringify (.arr bs) = .ok text →
      P.parse text = .ok (.arr bs) → P.setItemFails = false → P.getItemFails = false →
      loadBookmarks P (saveBookmarks P (.arr bs) st) = .ok bs := by
  subst hwrite hread
  exact ⟨save_then_load _ st bs _ (referenceCodec_round_trip (.arr bs)).1
      (referenceCodec_round_trip (.arr bs)).2 rfl rfl,
    fun P text hser hpar hw hr => save_then_load P st bs text hser hpar hw hr⟩

/-- Witness for C1 as amended: two records saved over an older value. -/
theorem save_then_load_round_trip_witness :
    loadBookmarks (codecPlatform false false)
      (saveBookmarks (codecPlatform false false) (.arr [sampleJob 7, invalidJob]) staleStore)
      = .ok [sampleJob 7, invalidJob] :=
  (save_then_load_round_trip false false staleStore [sampleJob 7, invalidJob] rfl rfl).1

/-- C2 (`loadBookmarks` never throws, empty on anything but an array): when the
read rejects, or the slot is absent, or its text does not parse, or it parses to
a value that is not an array, `loadBookmarks()` resolves to the empty sequence. -/
theorem load_without_array_is_empty (P : Platform) (st : Store)
    (h : P.getItemFails = true ∨ st.lookup BOOKMARKS_KEY = none ∨
      ∃ text, st.lookup BOOKMARKS_KEY = some text ∧
        ((∃ e, P.parse text = .error e) ∨ ∃ v, P.parse text = .ok v ∧ isArray v = false)) :
    loadBookmarks P st = .ok [] := by
  rcases h with h | h | ⟨text, ht, ⟨e, he⟩ | ⟨v, hv, hna⟩⟩
  · simp [loadBookmarks, getItem, h, bind, Except.bind]
  · cases hf : P.getItemFails <;>
      simp [loadBookmarks, getItem, h, hf, bind, Except.bind, pure, Except.pure]
  · cases hf : P.getItemFails <;>
      simp [loadBookmarks, getItem, ht, he, hf, bind, Except.bind, pure, Except.pure]
  · cases hf : P.getItemFails <;> cases v <;>
      simp_all [loadBookmarks, getItem, isArray, bind, Except.bind, pure, Except.pure]

/-- Witness for C2: an absent slot, the text `not json`, an object, a failing read. -/
theorem load_without_array_is_empty_witness :
    loadBookmarks referenceCodec [("other", "[1]")] = .ok [] ∧
    loadBookmarks referenceCodec [(BOOKMARKS_KEY, "not json")] = .ok [] ∧
    loadBookmarks referenceCodec [(BOOKMARKS_KEY, "\x7b\"id\":1\x7d")] = .ok [] ∧
    loadBookmarks unreadable [(BOOKMARKS_KEY, "[1]")] = .ok [] :=
  ⟨load_without_array_is_empty referenceCodec _ (Or.inr (Or.inl rfl)),
   load_without_array_is_empty referenceCodec _
    (Or.inr (Or.inr ⟨"not json", rfl, Or.inl ⟨_, rfl⟩⟩)),
   load_without_array_is_empty referenceCodec _
    (Or.inr (Or.inr ⟨"\x7b\"id\":1\x7d", rfl, Or.inr ⟨.obj [("id", .num 1)], rfl, rfl⟩⟩)),
   load_without_array_is_empty unreadable _ (Or.inl rfl)⟩

/-- C3 (toggle twice restores membership): for a Bookmark Set of records (none of
them `null`) and a job whose `id` is the number `n`, two successive calls of
`toggleBookmark(job)` both complete, and for every `id` value `v` some record of
the final set has `id` `v` exactly when some record of the original set has. -/
theorem toggle_twice_restores_membership (P : Platform) (s : BookmarkState) (j : JSON) (n : Int)
    (hid : prop "id" j = some (.num n))
    (hrec : ∀ b ∈ s.bookmarks, b ≠ .null) :
    ∃ s1 s2, toggleBookmark P (some j) s = .ok s1 ∧ toggleBookmark P (some j) s1 = .ok s2 ∧
      ∀ v : JSValue,
        (∃ b ∈ s2.bookmarks, prop "id" b = v) ↔ (∃ b ∈ s.bookmarks, prop "id" b = v) := by
  refine ⟨_, _, toggleBookmark_eq P s j n hid hrec,
    toggleBookmark_eq P _ j n hid (toggled_ne_null n j _ hid hrec), ?_⟩
  intro v
  exact toggled_toggled_mem n j s.bookmarks hid v

/-- Witness for C3: toggling a bookmarked job twice. -/
theorem toggle_twice_restores_membership_witness :
    ∃ s1 s2, toggleBookmark referenceCodec (some (sampleJob 2)) twoBookmarks = .ok s1 ∧
      toggleBookmark referenceCodec (some (sampleJob 2)) s1 = .ok s2 ∧
      ∀ v : JSValue, (∃ b ∈ s2.bookmarks, prop "id" b = v) ↔
        (∃ b ∈ twoBookmarks.bookmarks, prop "id" b = v) :=
  toggle_twice_restores_membership referenceCodec twoBookmarks (sampleJob 2) 2 rfl
    twoBookmarks_ne_null

/-- C4 (result of `toggleBookmark`): for a Bookmark Set of records (none of them
`null`) and a job whose `id` is the number `n`: if some record has that `id`, the
new set is the old one without the records of that `id`, the others in their
order; otherwise it is the old one with the job itself appended.  In both cases
the new set is what `saveBookmarks` receives and what the store is updated with. -/
theorem toggle_result (P : Platform) (s : BookmarkState) (j : JSON) (n : Int)
    (hid : prop "id" j = some (.num n))
    (hrec : ∀ b ∈ s.bookmarks, b ≠ .null) :
    ((∃ b ∈ s.bookmarks, prop "id" b = some (.num n)) →
      toggleBookmark P (some j) s = .ok
        { s with
          bookmarks := s.bookmarks.filter (fun b => !hasId n b)
          storage := saveBookmarks P (.arr (s.bookmarks.filter (fun b => !hasId n b))) s.storage
          saved := s.saved ++ [.arr (s.bookmarks.filter (fun b => !hasId n b))] }) ∧
    ((¬ ∃ b ∈ s.bookmarks, prop "id" b = some (.num n)) →
      toggleBookmark P (some j) s = .ok
        { s with
          bookmarks := s.bookmarks ++ [j]
          storage := saveBookmarks P (.arr (s.bookmarks ++ [j])) s.storage
          saved := s.saved ++ [.arr (s.bookmarks ++ [j])] }) := by
  have hany : s.bookmarks.any (hasId n) = true ↔
      ∃ b ∈ s.bookmarks, prop "id" b = some (.num n) := by
    simp [List.any_eq_true, hasId_iff]
  constructor
  · intro h
    have h' := hany.2 h
    rw [toggleBookmark_eq P s j n hid hrec]
    simp [toggledSpec, h']
  · intro h
    have h' : s.bookmarks.any (hasId n) = false := by
      rw [← Bool.not_eq_true, hany]; exact h
    rw [toggleBookmark_eq P s j n hid hrec]
    simp [toggledSpec, h']

/-- Witness for C4: removing the bookmarked job 2, adding the new job 3. -/
theorem toggle_result_witness :
    toggleBookmark referenceCodec (some (sampleJob 2)) twoBookmarks = .ok
      { bookmarks := [sampleJob 1]
        storage := [(BOOKMARKS_KEY, String.mk (encode (.arr [sampleJob 1])))]
        saved := [.arr [sampleJob 1]]
        alerts := [] } ∧
    toggleBookmark referenceCodec (some (sampleJob 3)) twoBookmarks = .ok
      { bookmarks := [sampleJob 1, sampleJob 2, sampleJob 3]
        storage :=
          [(BOOKMARKS_KEY, String.mk (encode (.arr [sampleJob 1, sampleJob 2, sampleJob 3])))]
        saved := [.arr [sampleJob 1, sampleJob 2, sampleJob 3]]
        alerts := [] } :=
  ⟨((toggle_result referenceCodec twoBookmarks (sampleJob 2) 2 rfl twoBookmarks_ne_null).1
      ⟨sampleJob 2, by simp [twoBookmarks], rfl⟩).trans rfl,
   ((toggle_result referenceCodec twoBookmarks (sampleJob 3) 3 rfl twoBookmarks_ne_null).2
      (by
        rintro ⟨b, hb, hbid⟩
        simp only [twoBookmarks, List.mem_cons, List.mem_singleton, List.not_mem_nil,
          or_false] at hb
        rcases hb with rfl | rfl <;> simp [sampleJob, prop, List.lookup] at hbid)).trans rfl⟩

/-- C5 (pagination merge): from a feed that is not loading, with more pages
expected and a current page `p ≥ 1` (see `page_pos`), when the response to page
`p + 1` succeeds with raw results holding at least one record with a numeric
`id`, `handleLoadMore()` requests page `p + 1` once, appends to the list exactly
the records with a numeric `id` in their order, sets the page to `p + 1` and
keeps "more pages may exist" true; nothing else changes. -/
theorem load_more_appends_valid_records (R : Runtime) (s : FeedState) (status : Nat)
    (data : JSON) (results : List JSON)
    (hload : s.isLoading = false) (hmoreload : s.isLoadingMore = false)
    (hmore : s.hasMoreJobs = true) (hpage : 1 ≤ s.page)
    (hresp : R.respond (s.page + 1) = .response true status (.ok data))
    (hraw : rawResults data = .arr results)
    (hvalid : ∃ r ∈ results, hasNumericId r = true) :
    handleLoadMore R s =
      ({ s with
          jobs := s.jobs ++ results.filter hasNumericId
          page := s.page + 1
          hasMoreJobs := true }, [s.page + 1]) := by
  have hlen : (results.filter hasNumericId).length > 0 := by
    obtain ⟨r, hr, hv⟩ := hvalid
    exact List.length_pos_of_mem (List.mem_filter.mpr ⟨hr, hv⟩)
  have hcall : handleLoadMore R s = fetchJobs R (s.page + 1) false s := by
    simp [handleLoadMore, hload, hmoreload, hmore]
  have hreq : (fetchJobs R (s.page + 1) false s).2 ≠ [] := by
    simp [fetchJobs, hload, hmoreload, hmore]
  have hne : ¬ (s.page + 1 = 1) := by omega
  rw [hcall, fetchJobs_success R _ false s status data results hreq hresp hraw]
  cases s
  simp_all

set_option maxRecDepth 100000 in
/-- Witness for C5: 20 records, then a page of 10 valid and 5 invalid ones, gives 30. -/
theorem load_more_appends_valid_records_witness :
    afterFirstPage.jobs.length = 20 ∧
    (handleLoadMore sampleRuntime afterFirstPage).1.jobs.length = 30 ∧
    (handleLoadMore sampleRuntime afterFirstPage).1.page = 2 ∧
    (handleLoadMore sampleRuntime afterFirstPage).1.hasMoreJobs = true := by
  have h := load_more_appends_valid_records sampleRuntime afterFirstPage 200
    (resultsBody secondPage) secondPage rfl rfl rfl (by decide) rfl rfl
    ⟨sampleJob 20, List.mem_append_left _ (List.mem_map.mpr ⟨0, by decide, rfl⟩), rfl⟩
  rw [h]
  exact ⟨rfl, rfl, rfl, rfl⟩

/-- C6 (terminal page): a fetch that issues its request and gets a successful
response with empty raw results leaves "more pages may exist" false; and in every
state where it is false `handleLoadMore()` requests nothing and changes nothing. -/
theorem empty_page_is_terminal (R : Runtime) (s : FeedState) (pageNum : Nat) (refreshing : Bool)
    (status : Nat) (data : JSON)
    (hreq : (fetchJobs R pageNum refreshing s).2 ≠ [])
    (hresp : R.respond pageNum = .response true status (.ok data))
    (hraw : rawResults data = .arr []) :
    (fetchJobs R pageNum refreshing s).1.hasMoreJobs = false ∧
    ∀ t : FeedState, t.hasMoreJobs = false → handleLoadMore R t = (t, []) := by
  constructor
  · rw [fetchJobs_success R pageNum refreshing s status data [] hreq hresp hraw]
    simp
  · intro t ht
    simp [handleLoadMore, ht]

set_option maxRecDepth 100000 in
/-- Witness for C6: the third page of the sample server is empty. -/
theorem empty_page_is_terminal_witness :
    (fetchJobs sampleRuntime 3 false afterSecondPage).2 = [3] ∧
    (fetchJobs sampleRuntime 3 false afterSecondPage).1.hasMoreJobs = false ∧
    handleLoadMore sampleRuntime (fetchJobs sampleRuntime 3 false afterSecondPage).1 =
      ((fetchJobs sampleRuntime 3 false afterSecondPage).1, []) :=
  have h := empty_page_is_terminal sampleRuntime afterSecondPage 3 false 200 (resultsBody [])
    (by decide) rfl rfl
  ⟨rfl, h.1, h.2 _ h.1⟩

/-- C7 (failure keeps the data): a fetch that issues its request and fails leaves
the accumulated list and the current page as they were, records a non-empty
error message and leaves "more pages may exist" true. -/
theorem failed_fetch_keeps_data (R : Runtime) (s : FeedState) (pageNum : Nat) (refreshing : Bool)
    (hreq : (fetchJobs R pageNum refreshing s).2 ≠ [])
    (hfail : fetchFails (R.respond pageNum) = true) :
    (fetchJobs R pageNum refreshing s).1.jobs = s.jobs ∧
    (fetchJobs R pageNum refreshing s).1.page = s.page ∧
    (∃ message, (fetchJobs R pageNum refreshing s).1.error = some message ∧ message ≠ "") ∧
    (fetchJobs R pageNum refreshing s).1.hasMoreJobs = true := by
  obtain ⟨message, h⟩ := fetchJobs_failure R pageNum refreshing s hreq hfail
  rw [h]
  refine ⟨rfl, rfl, ⟨_, rfl, ?_⟩, rfl⟩
  by_cases hm : message = ""
  · simp [hm, fetchFailedMessage]
  · simp [hm]

set_option maxRecDepth 100000 in
/-- Witness for C7: page 2 fails after a first page of 20 records. -/
theorem failed_fetch_keeps_data_witness :
    (fetchJobs flakyRuntime 1 true initialFeed).1.jobs.length = 20 ∧
    (handleLoadMore flakyRuntime (fetchJobs flakyRuntime 1 true initialFeed).1).1.jobs
      = (fetchJobs flakyRuntime 1 true initialFeed).1.jobs ∧
    (handleLoadMore flakyRuntime (fetchJobs flakyRuntime 1 true initialFeed).1).1.error
      = some "Network request failed" :=
  have h := failed_fetch_keeps_data flakyRuntime (fetchJobs flakyRuntime 1 true initialFeed).1 2
    false (by decide) rfl
  ⟨rfl, h.1, rfl⟩

/-- Counterexample to C8: a refresh from page 3 answered with empty results
empties the list and leaves the current page at 3. -/
theorem refresh_without_records_keeps_page :
    emptyRuntime.respond 1 = .response true 200 (.ok (resultsBody [])) ∧
    (handleRefresh emptyRuntime thirdPageFeed).1.jobs = [] ∧
    (handleRefresh emptyRuntime thirdPageFeed).1.page = 3 ∧
    (handleRefresh emptyRuntime thirdPageFeed).1.page ≠ 1 :=
  ⟨rfl, rfl, rfl, by decide⟩

/-- C8, amended (refresh): for every feed state and every successful response to
the refresh request, `handleRefresh()` requests page 1 once and the list becomes
the valid records of that response and nothing else; when the response holds at
least one valid record the current page becomes 1. -/
theorem refresh_replaces_list (R : Runtime) (s : FeedState) (status : Nat) (data : JSON)
    (results : List JSON)
    (hresp : R.respond 1 = .response true status (.ok data))
    (hraw : rawResults data = .arr results) :
    (handleRefresh R s).2 = [1] ∧
    (handleRefresh R s).1.jobs = results.filter hasNumericId ∧
    ((∃ r ∈ results, hasNumericId r = true) → (handleRefresh R s).1.page = 1) := by
  have hreq := handleRefresh_requested R s
  unfold handleRefresh at hreq ⊢
  rw [fetchJobs_success R 1 true _ status data results hreq hresp hraw]
  refine ⟨rfl, ?_, ?_⟩
  · by_cases h : (results.filter hasNumericId).length > 0
    · simp [h]
    · have : results.filter hasNumericId = [] := by
        simpa using h
      simp [this]
  · rintro ⟨r, hr, hv⟩
    have hlen : (results.filter hasNumericId).length > 0 :=
      List.length_pos_of_mem (List.mem_filter.mpr ⟨hr, hv⟩)
    simp [hlen]

set_option maxRecDepth 100000 in
/-- Witness for C8: a refresh after two pages brings back the first page alone. -/
theorem refresh_replaces_list_witness :
    (handleRefresh sampleRuntime afterSecondPage).1.jobs = firstPage ∧
    (handleRefresh sampleRuntime afterSecondPage).1.page = 1 :=
  have h := refresh_replaces_list sampleRuntime afterSecondPage 200 (resultsBody firstPage)
    firstPage rfl rfl
  ⟨h.2.1.trans rfl, h.2.2 ⟨sampleJob 0, List.mem_map.mpr ⟨0, by decide, rfl⟩, rfl⟩⟩

/-- Counterexample to C9: a fetch of page 1 (refresh or not) answered with one
record without a numeric `id` empties a list of two records. -/
theorem invalid_first_page_clears_list :
    thirdPageFeed.jobs = [sampleJob 1, sampleJob 2] ∧
    (fetchJobs invalidRuntime 1 true thirdPageFeed).2 = [1] ∧
    (fetchJobs invalidRuntime 1 true thirdPageFeed).1.jobs = [] ∧
    (fetchJobs invalidRuntime 1 false thirdPageFeed).1.jobs = [] ∧
    (fetchJobs invalidRuntime 1 true thirdPageFeed).1.jobs ≠ thirdPageFeed.jobs :=
  ⟨rfl, rfl, rfl, rfl, fun h => List.noConfusion h⟩

/-- C9, amended (all-invalid page): a fetch that issues its request and gets a
successful response with non-empty raw results none of which has a numeric `id`
leaves the list as it was when the page is not 1 and it is not a refresh, and
empties the list when the page is 1 or it is a refresh; in both cases "more
pages may exist" is not set to false (it keeps its value), so when it was true
the next `handleLoadMore()` still issues a request. -/
theorem invalid_page_effect (R : Runtime) (s : FeedState) (pageNum : Nat) (refreshing : Bool)
    (status : Nat) (data : JSON) (results : List JSON)
    (hreq : (fetchJobs R pageNum refreshing s).2 ≠ [])
    (hresp : R.respond pageNum = .response true status (.ok data))
    (hraw : rawResults data = .arr results)
    (hne : results ≠ [])
    (hinv : ∀ r ∈ results, hasNumericId r = false) :
    (fetchJobs R pageNum refreshing s).1.jobs =
      (if pageNum = 1 ∨ refreshing = true then [] else s.jobs) ∧
    (fetchJobs R pageNum refreshing s).1.hasMoreJobs = s.hasMoreJobs ∧
    (s.hasMoreJobs = true → ∀ R' : Runtime,
      (handleLoadMore R' (fetchJobs R pageNum refreshing s).1).2 =
        [(fetchJobs R pageNum refreshing s).1.page + 1]) := by
  have hf : results.filter hasNumericId = [] := by
    rw [List.filter_eq_nil_iff]
    intro r hr
    simp [hinv r hr]
  have hl : ¬ (results.length = 0) := by
    intro h
    exact hne (List.length_eq_zero.mp h)
  rw [fetchJobs_success R pageNum refreshing s status data results hreq hresp hraw]
  refine ⟨by simp [hf, hl], by simp [hf, hl], ?_⟩
  intro hmore R'
  simp [handleLoadMore, fetchJobs, hf, hl, hmore]

/-- Witness for C9 as amended: an all-invalid page 4 leaves the list alone and a
further request can follow. -/
theorem invalid_page_effect_witness :
    (fetchJobs invalidRuntime 4 false thirdPageFeed).2 = [4] ∧
    (fetchJobs invalidRuntime 4 false thirdPageFeed).1.jobs = thirdPageFeed.jobs ∧
    (fetchJobs invalidRuntime 4 false thirdPageFeed).1.hasMoreJobs = true ∧
    (handleLoadMore sampleRuntime (fetchJobs invalidRuntime 4 false thirdPageFeed).1).2 ≠ [] :=
  have h := invalid_page_effect invalidRuntime thirdPageFeed 4 false 200 (resultsBody [invalidJob])
    [invalidJob] (by decide) rfl rfl (List.cons_ne_nil _ _)
    (by intro r hr; rw [List.mem_singleton.mp hr]; rfl)
  ⟨rfl, h.1, h.2.1, by rw [h.2.2 rfl sampleRuntime]; exact List.cons_ne_nil _ _⟩

/-- C10 (uniqueness by `id` is an invariant): from a Bookmark Set of records (none
of them `null`) in which no two share an `id`, `toggleBookmark(job)` for a job
with a numeric `id` completes with such a set, `removeBookmark(jobId)` leaves
such a set for every `jobId` and either answer of the user, and every state
reachable from the empty set by these operations is unique by `id`. -/
theorem bookmark_set_unique_by_id (P : Platform) (sameRef : JSON → JSON → Bool)
    (s : BookmarkState) (j : JSON) (n : Int) (jobId : JSValue) (confirmed : Bool)
    (hid : prop "id" j = some (.num n))
    (hrec : ∀ b ∈ s.bookmarks, b ≠ .null)
    (hu : UniqueById s.bookmarks) :
    (∃ s', toggleBookmark P (some j) s = .ok s' ∧ UniqueById s'.bookmarks) ∧
    UniqueById (removeBookmark P sameRef jobId confirmed s).bookmarks ∧
    (∀ r, Reachable P sameRef r → UniqueById r.bookmarks) :=
  ⟨⟨_, toggleBookmark_eq P s j n hid hrec, toggled_unique n j _ hid hu⟩,
    List.Pairwise.sublist (removeBookmark_sublist P sameRef jobId confirmed s) hu,
    fun r hr => (reachable_invariant P sameRef r hr).1⟩

/-- Witness for C10: adding job 3 to, and removing job 1 from, two bookmarks. -/
theorem bookmark_set_unique_by_id_witness :
    UniqueById twoBookmarks.bookmarks ∧
    (∃ s', toggleBookmark referenceCodec (some (sampleJob 3)) twoBookmarks = .ok s' ∧
      UniqueById s'.bookmarks) ∧
    UniqueById
      (removeBookmark referenceCodec (fun _ _ => false) (some (.num 1)) true
        twoBookmarks).bookmarks :=
  have h := bookmark_set_unique_by_id referenceCodec (fun _ _ => false) twoBookmarks
    (sampleJob 3) 3 (some (.num 1)) true rfl twoBookmarks_ne_null twoBookmarks_unique
  ⟨twoBookmarks_unique, h.1, h.2.1⟩

/-- C11 (fetch guards): a non-refresh `fetchJobs(pageNum, false)` requests nothing
and leaves the whole Feed Page State as it was whenever `isLoading` or
`isLoadingMore` is true, or `pageNum > 1` and "more pages may exist" is false;
with `refreshing = true` no guard applies and exactly one request, for
`pageNum`, is issued. -/
theorem fetch_guards (R : Runtime) (s : FeedState) (pageNum : Nat) :
    ((s.isLoading = true ∨ s.isLoadingMore = true ∨ (pageNum > 1 ∧ s.hasMoreJobs = false)) →
      fetchJobs R pageNum false s = (s, [])) ∧
    (fetchJobs R pageNum true s).2 = [pageNum] := by
  constructor
  · rintro (h | h | ⟨h1, h2⟩)
    · simp [fetchJobs, h]
    · simp [fetchJobs, h]
    · simp [fetchJobs, h1, h2]
  · simp [fetchJobs]

/-- Witness for C11: page 4 asked for while loading more, and after the terminal page. -/
theorem fetch_guards_witness :
    fetchJobs sampleRuntime 4 false loadingMoreFeed = (loadingMoreFeed, []) ∧
    fetchJobs sampleRuntime 4 false exhaustedFeed = (exhaustedFeed, []) ∧
    (fetchJobs sampleRuntime 4 true loadingMoreFeed).2 = [4] ∧
    (fetchJobs sampleRuntime 4 true exhaustedFeed).2 = [4] :=
  ⟨(fetch_guards sampleRuntime loadingMoreFeed 4).1 (Or.inr (Or.inl rfl)),
   (fetch_guards sampleRuntime exhaustedFeed 4).1 (Or.inr (Or.inr ⟨by decide, rfl⟩)),
   (fetch_guards sampleRuntime loadingMoreFeed 4).2,
   (fetch_guards sampleRuntime exhaustedFeed 4).2⟩

/-- C12 (in-flight flags released): every `fetchJobs` call that passes its guards
(it is a refresh, or nothing is in flight and either `pageNum ≤ 1` or "more pages
may exist") issues its request and ends with both `isLoading` and
`isLoadingMore` false, whatever the network answered and whatever the flags were
on entry. -/
theorem in_flight_flags_released (R : Runtime) (s : FeedState) (pageNum : Nat)
    (refreshing : Bool)
    (hguards : refreshing = true ∨
      (s.isLoading = false ∧ s.isLoadingMore = false ∧ (pageNum ≤ 1 ∨ s.hasMoreJobs = true))) :
    (fetchJobs R pageNum refreshing s).2 = [pageNum] ∧
    (fetchJobs R pageNum refreshing s).1.isLoading = false ∧
    (fetchJobs R pageNum refreshing s).1.isLoadingMore = false := by
  have hreq : (fetchJobs R pageNum refreshing s).2 = [pageNum] := by
    rcases hguards with h | ⟨h1, h2, h3 | h3⟩
    · simp [fetchJobs, h]
    · have : ¬ (1 < pageNum) := by omega
      simp [fetchJobs, h1, h2, this]
    · simp [fetchJobs, h1, h2, h3]
  have hne : (fetchJobs R pageNum refreshing s).2 ≠ [] := by rw [hreq]; simp
  obtain ⟨g1, g2⟩ := guards_of_requested hne
  refine ⟨hreq, ?_⟩
  simp [fetchJobs, g1, g2]

set_option maxRecDepth 100000 in
/-- Witness for C12: a refresh that starts with `isLoadingMore` set (on success and
on a network error), then a page with valid records, an empty page, an
all-invalid page, a status 503, a network error and a body that does not parse. -/
theorem in_flight_flags_released_witness :
    loadingMoreFeed.isLoadingMore = true ∧
    (fetchJobs sampleRuntime 1 true loadingMoreFeed).1.isLoadingMore = false ∧
    (fetchJobs flakyRuntime 2 true loadingMoreFeed).1.isLoadingMore = false ∧
    (fetchJobs sampleRuntime 2 false afterFirstPage).1.isLoadingMore = false ∧
    (fetchJobs sampleRuntime 3 false afterSecondPage).1.isLoadingMore = false ∧
    (fetchJobs invalidRuntime 4 false thirdPageFeed).1.isLoadingMore = false ∧
    (fetchJobs (statusRuntime 503) 1 true thirdPageFeed).1.isLoading = false ∧
    (fetchJobs flakyRuntime 4 false thirdPageFeed).1.isLoadingMore = false ∧
    (fetchJobs garbledRuntime 1 false initialFeed).1.isLoading = false :=
  ⟨rfl,
   (in_flight_flags_released sampleRuntime loadingMoreFeed 1 true (Or.inl rfl)).2.2,
   (in_flight_flags_released flakyRuntime loadingMoreFeed 2 true (Or.inl rfl)).2.2,
   (in_flight_flags_released sampleRuntime afterFirstPage 2 false
      (Or.inr ⟨rfl, rfl, Or.inr rfl⟩)).2.2,
   (in_flight_flags_released sampleRuntime afterSecondPage 3 false
      (Or.inr ⟨rfl, rfl, Or.inr rfl⟩)).2.2,
   (in_flight_flags_released invalidRuntime thirdPageFeed 4 false
      (Or.inr ⟨rfl, rfl, Or.inr rfl⟩)).2.2,
   (in_flight_flags_released (statusRuntime 503) thirdPageFeed 1 true (Or.inl rfl)).2.1,
   (in_flight_flags_released flakyRuntime thirdPageFeed 4 false
      (Or.inr ⟨rfl, rfl, Or.inr rfl⟩)).2.2,
   (in_flight_flags_released garbledRuntime initialFeed 1 false
      (Or.inr ⟨rfl, rfl, Or.inl (by decide)⟩)).2.1⟩

/-- C13 (HTTP failure classification): after a `fetchJobs` that issued its request
and got a response that is not `ok`, the recorded error depends on the status
alone: 404 gives the endpoint-not-found message, every status `≥ 500` the
server-error message with the status in it, every other status the generic
HTTP error message with the status in it. -/
theorem http_failure_classification (R : Runtime) (s : FeedState) (pageNum : Nat)
    (refreshing : Bool) (status : Nat) (body : Except Thrown JSON)
    (hreq : (fetchJobs R pageNum refreshing s).2 ≠ [])
    (hresp : R.respond pageNum = .response false status body) :
    (status = 404 →
      (fetchJobs R pageNum refreshing s).1.error = some "Jobs API endpoint not found (404).") ∧
    (500 ≤ status →
      (fetchJobs R pageNum refreshing s).1.error =
        some ("Server error (" ++ toString status ++ "). Please try again later.")) ∧
    (status ≠ 404 → status < 500 →
      (fetchJobs R pageNum refreshing s).1.error =
        some ("HTTP error! status: " ++ toString status)) := by
  rw [fetchJobs_thrown R pageNum refreshing s _ hreq
    (fetchAttempt_http_failure R pageNum refreshing status body hresp)]
  refine ⟨?_, ?_, ?_⟩
  · intro h
    simp [h]
  · intro h
    have h1 : status ≠ 404 := by omega
    simp only [h1, h, ↓reduceIte, String.append_assoc,
      append_ne_empty "Server error (" _ (by decide)]
  · intro h1 h2
    have h3 : ¬ 500 ≤ status := by omega
    simp only [h1, h3, ↓reduceIte, append_ne_empty "HTTP error! status: " _ (by decide)]

/-- Witness for C13: the statuses 404, 503 and 403. -/
theorem http_failure_classification_witness :
    (fetchJobs (statusRuntime 404) 1 true thirdPageFeed).1.error
      = some "Jobs API endpoint not found (404)." ∧
    (fetchJobs (statusRuntime 503) 1 true thirdPageFeed).1.error
      = some "Server error (503). Please try again later." ∧
    (fetchJobs (statusRuntime 403) 4 false thirdPageFeed).1.error
      = some "HTTP error! status: 403" :=
  ⟨(http_failure_classification (statusRuntime 404) thirdPageFeed 1 true 404 _ (by decide) rfl).1 rfl,
   ((http_failure_classification (statusRuntime 503) thirdPageFeed 1 true 503 _ (by decide) rfl).2.1
      (by decide)).trans rfl,
   ((http_failure_classification (statusRuntime 403) thirdPageFeed 4 false 403 _ (by decide) rfl).2.2
      (by decide) (by decide)).trans rfl⟩

/-- C14 (invalid toggle rejected): when the argument is `undefined`, `null` or any
value whose `id` is not a number, `toggleBookmark` only shows its alert: the
Bookmark Set in memory, the calls of `saveBookmarks` and the store are as before. -/
theorem invalid_toggle_rejected (P : Platform) (s : BookmarkState) (job : JSValue)
    (hinvalid : asNumber (job.bind (prop "id")) = none) :
    toggleBookmark P job s = .ok { s with alerts := s.alerts ++ ["Cannot save this item."] } := by
  unfold toggleBookmark
  cases job with
  | none => rfl
  | some j =>
    simp only [Option.bind] at hinvalid
    by_cases ht : truthy j = true
    · simp [ht, hinvalid]
    · simp [ht]

/-- Witness for C14: `undefined`, `null`, no `id`, a `null` `id`, a string `id`. -/
theorem invalid_toggle_rejected_witness :
    toggleBookmark referenceCodec none twoBookmarks
      = .ok { twoBookmarks with alerts := ["Cannot save this item."] } ∧
    toggleBookmark referenceCodec (some .null) twoBookmarks
      = .ok { twoBookmarks with alerts := ["Cannot save this item."] } ∧
    toggleBookmark referenceCodec (some (.obj [("title", .str "Ad")])) twoBookmarks
      = .ok { twoBookmarks with alerts := ["Cannot save this item."] } ∧
    toggleBookmark referenceCodec (some (.obj [("id", .null)])) twoBookmarks
      = .ok { twoBookmarks with alerts := ["Cannot save this item."] } ∧
    toggleBookmark referenceCodec (some invalidJob) twoBookmarks
      = .ok { twoBookmarks with alerts := ["Cannot save this item."] } :=
  ⟨invalid_toggle_rejected referenceCodec twoBookmarks none rfl,
   invalid_toggle_rejected referenceCodec twoBookmarks (some .null) rfl,
   invalid_toggle_rejected referenceCodec twoBookmarks _ rfl,
   invalid_toggle_rejected referenceCodec twoBookmarks _ rfl,
   invalid_toggle_rejected referenceCodec twoBookmarks (some invalidJob) rfl⟩

/-- C15 (a later page never clears the error): after a `fetchJobs` that issued its
request and succeeded, the error message is what it was before when
`pageNum > 1` and it is not a refresh (more generally when `pageNum ≠ 1`), and is
none when `pageNum = 1` or it is a refresh; and whatever the outcome, a fetch
for `pageNum > 1` that is not a refresh leaves a recorded error recorded. -/
theorem later_page_keeps_error (R : Runtime) (s : FeedState) (pageNum : Nat) (refreshing : Bool)
    (status : Nat) (data : JSON) (results : List JSON)
    (hreq : (fetchJobs R pageNum refreshing s).2 ≠ [])
    (hresp : R.respond pageNum = .response true status (.ok data))
    (hraw : rawResults data = .arr results) :
    (pageNum > 1 → refreshing = false → (fetchJobs R pageNum refreshing s).1.error = s.error) ∧
    (pageNum = 1 ∨ refreshing = true → (fetchJobs R pageNum refreshing s).1.error = none) ∧
    (pageNum ≠ 1 → refreshing = false → (fetchJobs R pageNum refreshing s).1.error = s.error) ∧
    (∀ (R' : Runtime) (t : FeedState), pageNum > 1 → t.error ≠ none →
      (fetchJobs R' pageNum false t).1.error ≠ none) := by
  refine ⟨?_, ?_, ?_, fun R' t hp ht => fetchJobs_error_kept R' pageNum t (by omega) ht⟩ <;>
    rw [fetchJobs_success R pageNum refreshing s status data results hreq hresp hraw]
  · intro h1 h2
    have : pageNum ≠ 1 := by omega
    simp [this, h2]
  · intro h
    rcases h with h | h <;> simp [h]
  · intro h1 h2
    simp [h1, h2]

set_option maxRecDepth 100000 in
/-- Witness for C15: page 2 fails, the retry succeeds and the message stays; a
refresh clears it. -/
theorem later_page_keeps_error_witness :
    afterFailedSecondPage.error = some "Network request failed" ∧
    (fetchJobs sampleRuntime 2 false afterFailedSecondPage).1.jobs.length = 30 ∧
    (fetchJobs sampleRuntime 2 false afterFailedSecondPage).1.error
      = some "Network request failed" ∧
    (fetchJobs sampleRuntime 1 true afterFailedSecondPage).1.error = none :=
  ⟨rfl, rfl,
   ((later_page_keeps_error sampleRuntime afterFailedSecondPage 2 false 200
      (resultsBody secondPage) secondPage (by decide) rfl rfl).1 (by decide) rfl).trans rfl,
   (later_page_keeps_error sampleRuntime afterFailedSecondPage 1 true 200
      (resultsBody firstPage) firstPage (by decide) rfl rfl).2.1 (Or.inl rfl)⟩

end JobApp
